import Mathlib

/-
  Verification of the pubget_scrape pipeline (src/download.py).

  The pipeline is embedded shallowly:
  * machine-level hashing (hashlib.md5) is implemented bit-faithfully over
    Nat arithmetic mod 2^32;
  * the filesystem is an association list from structured paths
    (directory string, stem, extension) to file data; the rendered path of
    such a triple is dir/stem.ext, matching how download.py builds every
    path it touches (all stems it produces are dot-free and slash-free, so
    the rendering is injective on the reachable states and pathlib's
    .stem/.suffix agree with the fields);
  * network access, bs4 HTML parsing, pandas.read_html and the external
    pubget coordinate-detection routine are oracles supplied in an
    environment record;
  * Python exceptions are Except values; the state (filesystem, counters
    of network calls and sleeps, the log of logging.exception records)
    is threaded explicitly.
-/

set_option maxRecDepth 1000000

namespace PubgetScrape

/-! ## MD5 (hashlib.md5, bit-faithful) -/

def mdK : List Nat := [3614090360, 3905402710, 606105819, 3250441966, 4118548399, 1200080426, 2821735955, 4249261313, 1770035416, 2336552879, 4294925233, 2304563134, 1804603682, 4254626195, 2792965006, 1236535329, 4129170786, 3225465664, 643717713, 3921069994, 3593408605, 38016083, 3634488961, 3889429448, 568446438, 3275163606, 4107603335, 1163531501, 2850285829, 4243563512, 1735328473, 2368359562, 4294588738, 2272392833, 1839030562, 4259657740, 2763975236, 1272893353, 4139469664, 3200236656, 681279174, 3936430074, 3572445317, 76029189, 3654602809, 3873151461, 530742520, 3299628645, 4096336452, 1126891415, 2878612391, 4237533241, 1700485571, 2399980690, 4293915773, 2240044497, 1873313359, 4264355552, 2734768916, 1309151649, 4149444226, 3174756917, 718787259, 3951481745]

def mdS : List Nat := [7, 12, 17, 22, 7, 12, 17, 22, 7, 12, 17, 22, 7, 12, 17, 22, 5, 9, 14, 20, 5, 9, 14, 20, 5, 9, 14, 20, 5, 9, 14, 20, 4, 11, 16, 23, 4, 11, 16, 23, 4, 11, 16, 23, 4, 11, 16, 23, 6, 10, 15, 21, 6, 10, 15, 21, 6, 10, 15, 21, 6, 10, 15, 21]

def w32 : Nat := 4294967296

def rotl32 (x n : Nat) : Nat :=
  ((x * 2 ^ n) % w32) + (x / 2 ^ (32 - n))

def not32 (x : Nat) : Nat := Nat.xor x 4294967295

def toLEBytes : Nat → Nat → List Nat
  | 0, _ => []
  | k + 1, n => (n % 256) :: toLEBytes k (n / 256)

def leWords : List Nat → List Nat
  | a :: b :: c :: d :: rest =>
      (a + 256 * b + 65536 * c + 16777216 * d) :: leWords rest
  | _ => []

def md5pad (msg : List Nat) : List Nat :=
  let len := msg.length
  let padLen := (119 - len % 64) % 64
  msg ++ [128] ++ List.replicate padLen 0 ++ toLEBytes 8 ((8 * len) % 2 ^ 64)

def chunks64Go : Nat → List Nat → List (List Nat)
  | 0, _ => []
  | _, [] => []
  | fuel + 1, x :: xs =>
      (x :: xs).take 64 :: chunks64Go fuel ((x :: xs).drop 64)

def chunks64 (l : List Nat) : List (List Nat) := chunks64Go l.length l

def md5round (M : List Nat) (st : Nat × Nat × Nat × Nat) (i : Nat) :
    Nat × Nat × Nat × Nat :=
  let a := st.1
  let b := st.2.1
  let c := st.2.2.1
  let d := st.2.2.2
  let fg : Nat × Nat :=
    if i < 16 then (Nat.lor (Nat.land b c) (Nat.land (not32 b) d), i)
    else if i < 32 then
      (Nat.lor (Nat.land d b) (Nat.land (not32 d) c), (5 * i + 1) % 16)
    else if i < 48 then (Nat.xor (Nat.xor b c) d, (3 * i + 5) % 16)
    else (Nat.xor c (Nat.lor b (not32 d)), (7 * i) % 16)
  let f := (fg.1 + a + mdK.getD i 0 + M.getD fg.2 0) % w32
  (d, (b + rotl32 f (mdS.getD i 0)) % w32, b, c)

def md5block (st : Nat × Nat × Nat × Nat) (block : List Nat) :
    Nat × Nat × Nat × Nat :=
  let M := leWords block
  let r := (List.range 64).foldl (md5round M) st
  ((st.1 + r.1) % w32, (st.2.1 + r.2.1) % w32,
   (st.2.2.1 + r.2.2.1) % w32, (st.2.2.2 + r.2.2.2) % w32)

def hexDigit (n : Nat) : Char := "0123456789abcdef".data.getD n 'x'

def byteHex (b : Nat) : List Char := [hexDigit (b / 16), hexDigit (b % 16)]

def md5hexChars (msg : List Nat) : List Char :=
  let init : Nat × Nat × Nat × Nat :=
    (1732584193, 4023233417, 2562383102, 271733878)
  let r := (chunks64 (md5pad msg)).foldl md5block init
  let bytes :=
    toLEBytes 4 r.1 ++ toLEBytes 4 r.2.1 ++ toLEBytes 4 r.2.2.1 ++
      toLEBytes 4 r.2.2.2
  ((bytes.map byteHex).flatten : List Char)

def md5hex (msg : List Nat) : String := String.mk (md5hexChars msg)

def utf8Encode (n : Nat) : List Nat :=
  if n < 128 then [n]
  else if n < 2048 then [192 + n / 64, 128 + n % 64]
  else if n < 65536 then [224 + n / 4096, 128 + (n / 64) % 64, 128 + n % 64]
  else [240 + n / 262144, 128 + (n / 4096) % 64, 128 + (n / 64) % 64,
        128 + n % 64]

def strBytes (s : String) : List Nat :=
  (s.data.map (fun c => utf8Encode c.toNat)).flatten

/-- hashlib.md5(name.encode("UTF-8")).hexdigest()[:6] -/
def _short_hash (name : String) : String :=
  String.mk ((md5hexChars (strBytes name)).take 6)

/-! ## Data model: values, data frames (pandas), files, paths -/

inductive Val where
  | str : String → Val
  | int : Int → Val
deriving DecidableEq

/-- A pandas DataFrame: an ordered column list plus rows, each row an
association list from column name to value. -/
structure DataFrame where
  cols : List String
  rows : List (List (String × Val))
deriving DecidableEq

def lookupA {κ α : Type} [DecidableEq κ] : List (κ × α) → κ → Option α
  | [], _ => none
  | (k1, v) :: rest, k => if k1 = k then some v else lookupA rest k

/-- Python dict assignment d[k] = v: replaces the value of an existing key
in place, otherwise appends the new binding (insertion order preserved). -/
def setAssoc {κ α : Type} [DecidableEq κ] : List (κ × α) → κ → α → List (κ × α)
  | [], k, v => [(k, v)]
  | (k1, v1) :: rest, k, v =>
      if k1 = k then (k, v) :: rest else (k1, v1) :: setAssoc rest k v

/-- pandas df[name] = scalar: broadcast assignment of one column. -/
def dfSetCol (df : DataFrame) (name : String) (v : Val) : DataFrame :=
  { cols := if name ∈ df.cols then df.cols else df.cols ++ [name],
    rows := df.rows.map (fun r => setAssoc r name v) }

/-- pandas df.loc[:, fields]: select the named columns in the given order;
KeyError when a requested column is absent. -/
def dfLoc (df : DataFrame) (fields : List String) : Except String DataFrame :=
  if ∀ f ∈ fields, f ∈ df.cols then
    Except.ok { cols := fields, rows := df.rows }
  else Except.error "KeyError"

def unionCols (a b : List String) : List String :=
  a ++ b.filter (fun c => !decide (c ∈ a))

/-- pandas pd.concat: raises ValueError on an empty list, otherwise stacks
the rows, with the column order being the order of first appearance. -/
def pdConcat (dfs : List DataFrame) : Except String DataFrame :=
  match dfs with
  | [] => Except.error "ValueError: no objects to concatenate"
  | _ :: _ =>
      Except.ok
        { cols := dfs.foldl (fun acc df => unionCols acc df.cols) [],
          rows := dfs.foldl (fun acc df => acc ++ df.rows) [] }

/-- A filesystem path, structured as directory/stem.ext.  Every path
download.py touches has this shape, with a dot-free slash-free stem, so the
rendering is injective on reachable states and pathlib's .stem agrees with
the stem field. -/
structure FPath where
  dir : String
  stem : String
  ext : String
deriving DecidableEq

/-- Persisted file contents, kept structured: serialization to bytes
(json.dumps / DataFrame.to_csv) round-trips through the matching reader. -/
inductive FileData where
  | raw : String → FileData
  | jsonMap : List (String × String) → FileData
  | csv : DataFrame → FileData
deriving DecidableEq

abbrev Fs := List (FPath × FileData)

def fsRead (fs : Fs) (p : FPath) : Option FileData := lookupA fs p

def fsWrite (fs : Fs) (p : FPath) (d : FileData) : Fs := setAssoc fs p d

def isFile (fs : Fs) (p : FPath) : Bool := (fsRead fs p).isSome

/-- One HTML element as bs4 sees it: its class list and attributes. -/
structure Element where
  classes : List String
  attrs : List (String × String)
deriving DecidableEq

/-- External collaborators: the network (requests session .get composed with
raise_for_status), bs4 parsing (the document flattened in document order),
pandas.read_html composed with the [0] subscript, and the pubget
coordinate-detection routine.  Each failure mode is an Except.error. -/
structure Env where
  net : String → Except String String
  parseHtml : String → Except String (List Element)
  readHtmlTable : String → Except String DataFrame
  extractCoordinates : DataFrame → Except String DataFrame

/-- Threaded effect state: the filesystem, the number of network calls, the
number of sleeps, and the log of logging.exception records. -/
structure PState where
  fs : Fs
  nCalls : Nat
  nSleeps : Nat
  log : List String
deriving DecidableEq

/-! ## The pipeline (download.py) -/

def _PMC_URL_TEMPLATE (pmcid : Nat) : String :=
  "https://www.ncbi.nlm.nih.gov/pmc/articles/PMC" ++ toString pmcid

def _PMC_TABLE_URL_TEMPLATE (pmcid : Nat) (table_id : String) : String :=
  _PMC_URL_TEMPLATE pmcid ++ "/table/" ++ table_id ++ "/?report=objectonly"

def _COORD_FIELDS : List String := ["pmcid", "table_id", "x", "y", "z"]

def _sleep (st : PState) : PState := { st with nSleeps := st.nSleeps + 1 }

def articlePath (output_dir : String) (pmcid : Nat) : FPath :=
  ⟨output_dir, "pmcid_" ++ toString pmcid ++ "_article", "html"⟩

def tablesDirPath (output_dir : String) (pmcid : Nat) : String :=
  output_dir ++ "/pmcid_" ++ toString pmcid ++ "_tables"

def tableIdsPath (tables_dir : String) : FPath := ⟨tables_dir, "table_ids", "json"⟩

def coordinatesPath (output_dir : String) (pmcid : Nat) : FPath :=
  ⟨output_dir, "pmcid_" ++ toString pmcid ++ "_coordinates", "csv"⟩

def mergedPath (output_dir : String) : FPath :=
  ⟨output_dir, "all_coordinates", "csv"⟩

def _get_article (env : Env) (pmcid : Nat) (output_dir : String) (st : PState) :
    Except String FPath × PState :=
  let output_file := articlePath output_dir pmcid
  if isFile st.fs output_file then (Except.ok output_file, st)
  else
    let st1 := _sleep st
    let st2 := { st1 with nCalls := st1.nCalls + 1 }
    match env.net (_PMC_URL_TEMPLATE pmcid) with
    | Except.error e => (Except.error e, st2)
    | Except.ok content =>
        (Except.ok output_file,
         { st2 with fs := fsWrite st2.fs output_file (FileData.raw content) })

def _get_table_ids (env : Env) (fs : Fs) (article_file : FPath) :
    Except String (List String) :=
  match fsRead fs article_file with
  | some (FileData.raw content) =>
      match env.parseHtml content with
      | Except.error e => Except.error e
      | Except.ok elems =>
          (elems.filter (fun el => decide ("table-wrap" ∈ el.classes))).mapM
            (fun tw =>
              match lookupA tw.attrs "id" with
              | some i => Except.ok i
              | none => Except.error "KeyError: id")
  | _ => Except.error "read failure"

/-- The for loop of _get_tables, threading the id_info dict.  A failed table
fetch raises out of the loop (there is no per-table handler in the source). -/
def _get_tables_loop (env : Env) (pmcid : Nat) (tables_dir : String) :
    List String → List (String × String) → PState →
    Except String (List (String × String)) × PState
  | [], id_info, st => (Except.ok id_info, st)
  | table_id :: rest, id_info, st =>
      let table_name := _short_hash table_id
      let id_info2 := setAssoc id_info table_name table_id
      let table_file : FPath := ⟨tables_dir, table_name, "html"⟩
      if isFile st.fs table_file then
        _get_tables_loop env pmcid tables_dir rest id_info2 st
      else
        let st1 := _sleep st
        let st2 := { st1 with nCalls := st1.nCalls + 1 }
        match env.net (_PMC_TABLE_URL_TEMPLATE pmcid table_id) with
        | Except.error e => (Except.error e, st2)
        | Except.ok content =>
            _get_tables_loop env pmcid tables_dir rest id_info2
              { st2 with fs := fsWrite st2.fs table_file (FileData.raw content) }

def _get_tables (env : Env) (pmcid : Nat) (article_file : FPath)
    (output_dir : String) (st : PState) : Except String String × PState :=
  match _get_table_ids env st.fs article_file with
  | Except.error e => (Except.error e, st)
  | Except.ok all_table_ids =>
      let tables_dir := tablesDirPath output_dir pmcid
      match _get_tables_loop env pmcid tables_dir all_table_ids [] st with
      | (Except.error e, st2) => (Except.error e, st2)
      | (Except.ok id_info, st2) =>
          (Except.ok tables_dir,
           { st2 with
               fs := fsWrite st2.fs (tableIdsPath tables_dir)
                 (FileData.jsonMap id_info) })

/-- tables_dir.glob with the html pattern: the stems and contents of the
files under tables_dir carrying the html extension. -/
def globHtml (fs : Fs) (dir : String) : List (String × String) :=
  fs.filterMap (fun pd =>
    match pd with
    | (p, FileData.raw content) =>
        if p.dir = dir ∧ p.ext = "html" then some (p.stem, content) else none
    | _ => none)

/-- The for loop of _get_coordinates.  The mapping lookup sits outside the
per-table try, so a missing key raises; a parse or detection failure inside
the try skips that table. -/
def _get_coordinates_loop (env : Env) (pmcid : Nat)
    (all_table_ids : List (String × String)) :
    List (String × String) → List DataFrame → Except String (List DataFrame)
  | [], acc => Except.ok acc
  | (stem, content) :: rest, acc =>
      match lookupA all_table_ids stem with
      | none => Except.error "KeyError"
      | some table_id =>
          match (env.readHtmlTable content).bind env.extractCoordinates with
          | Except.error _ =>
              _get_coordinates_loop env pmcid all_table_ids rest acc
          | Except.ok table0 =>
              let coords1 := dfSetCol table0 "table_id" (Val.str table_id)
              let coords2 := dfSetCol coords1 "pmcid" (Val.int (pmcid : Int))
              _get_coordinates_loop env pmcid all_table_ids rest (acc ++ [coords2])

def _get_coordinates (env : Env) (pmcid : Nat) (tables_dir : String)
    (output_dir : String) (st : PState) : Except String FPath × PState :=
  match fsRead st.fs (tableIdsPath tables_dir) with
  | some (FileData.jsonMap all_table_ids) =>
      match _get_coordinates_loop env pmcid all_table_ids
          (globHtml st.fs tables_dir) [] with
      | Except.error e => (Except.error e, st)
      | Except.ok all_coordinates =>
          let resultE :=
            if all_coordinates = [] then
              Except.ok (DataFrame.mk _COORD_FIELDS [])
            else (pdConcat all_coordinates).bind (fun d => dfLoc d _COORD_FIELDS)
          match resultE with
          | Except.error e => (Except.error e, st)
          | Except.ok result =>
              let coordinates_file := coordinatesPath output_dir pmcid
              (Except.ok coordinates_file,
               { st with
                   fs := fsWrite st.fs coordinates_file (FileData.csv result) })
  | _ => (Except.error "read failure", st)

def _process_pmcid (env : Env) (pmcid : Nat) (output_dir : String)
    (st : PState) : Except String FPath × PState :=
  match _get_article env pmcid output_dir st with
  | (Except.error e, st1) => (Except.error e, st1)
  | (Except.ok html_file, st1) =>
      match _get_tables env pmcid html_file output_dir st1 with
      | (Except.error e, st2) => (Except.error e, st2)
      | (Except.ok tables_dir, st2) =>
          _get_coordinates env pmcid tables_dir output_dir st2

/-- The for loop of _process_all_pmcids: the per-identifier try/except,
the error counter and the logging.exception record. -/
def _process_loop (env : Env) (output_dir : String) :
    List Nat → List FPath → Nat → PState → List FPath × Nat × PState
  | [], files, n_errors, st => (files, n_errors, st)
  | pmcid :: rest, files, n_errors, st =>
      match _process_pmcid env pmcid output_dir st with
      | (Except.ok f, st1) =>
          _process_loop env output_dir rest (files ++ [f]) n_errors st1
      | (Except.error _, st1) =>
          _process_loop env output_dir rest files (n_errors + 1)
            { st1 with
                log := st1.log ++ ["Failed to process PMCID " ++ toString pmcid] }

/-- pandas pd.read_csv on a per-article dataset file: the csv round-trips
through the structured filesystem; any other content fails the read. -/
def read_csv (fs : Fs) (f : FPath) : Except String DataFrame :=
  match fsRead fs f with
  | some (FileData.csv df) => Except.ok df
  | _ => Except.error "read_csv failure"

def _process_all_pmcids (env : Env) (all_pmcids : List Nat)
    (output_dir : String) (st : PState) : Except String FPath × PState :=
  match _process_loop env output_dir all_pmcids [] 0 st with
  | (files, _, st1) =>
      match files.mapM (read_csv st1.fs) with
      | Except.error e => (Except.error e, st1)
      | Except.ok all_coords =>
          match pdConcat all_coords with
          | Except.error e => (Except.error e, st1)
          | Except.ok merged =>
              if "pmcid" ∈ merged.cols then
                (Except.ok (mergedPath output_dir),
                 { st1 with
                     fs := fsWrite st1.fs (mergedPath output_dir)
                       (FileData.csv merged) })
              else (Except.error "KeyError: pmcid", st1)

/-! ## Generic helper lemmas -/

instance {ε α : Type} [DecidableEq ε] [DecidableEq α] :
    DecidableEq (Except ε α) := fun x y =>
  match x, y with
  | Except.ok a, Except.ok b =>
      if h : a = b then isTrue (by rw [h])
      else isFalse (fun hc => h (Except.ok.inj hc))
  | Except.error a, Except.error b =>
      if h : a = b then isTrue (by rw [h])
      else isFalse (fun hc => h (Except.error.inj hc))
  | Except.ok _, Except.error _ => isFalse (fun hc => Except.noConfusion hc)
  | Except.error _, Except.ok _ => isFalse (fun hc => Except.noConfusion hc)

section AssocLemmas

variable {κ α β : Type} [DecidableEq κ]

theorem lookupA_setAssoc_self (l : List (κ × α)) (k : κ) (v : α) :
    lookupA (setAssoc l k v) k = some v := by
  induction l with
  | nil => simp [setAssoc, lookupA]
  | cons hd tl ih =>
      obtain ⟨k1, v1⟩ := hd
      by_cases h : k1 = k
      · simp [setAssoc, h, lookupA]
      · simp [setAssoc, h, lookupA, ih]

theorem lookupA_setAssoc_ne (l : List (κ × α)) {k k' : κ} (v : α)
    (h : k' ≠ k) : lookupA (setAssoc l k v) k' = lookupA l k' := by
  have hne : k ≠ k' := fun hh => h hh.symm
  induction l with
  | nil =>
      simp only [setAssoc, lookupA]
      simp only [if_neg hne]
  | cons hd tl ih =>
      obtain ⟨k1, v1⟩ := hd
      by_cases h1 : k1 = k
      · subst h1
        simp only [setAssoc, if_pos rfl, lookupA]
        simp only [if_neg hne]
      · simp only [setAssoc, if_neg h1, lookupA]
        by_cases h2 : k1 = k'
        · rw [if_pos h2, if_pos h2]
        · rw [if_neg h2, if_neg h2, ih]

theorem mem_setAssoc (l : List (κ × α)) (k : κ) (v : α) :
    ∀ x ∈ setAssoc l k v, x ∈ l ∨ x = (k, v) := by
  induction l with
  | nil => simp [setAssoc]
  | cons hd tl ih =>
      obtain ⟨k1, v1⟩ := hd
      intro x hx
      by_cases h : k1 = k
      · simp only [setAssoc, if_pos h] at hx
        rcases List.mem_cons.mp hx with h1 | h1
        · right; exact h1
        · left; exact List.mem_cons_of_mem _ h1
      · simp only [setAssoc, if_neg h] at hx
        rcases List.mem_cons.mp hx with h1 | h1
        · left; exact h1 ▸ List.mem_cons_self _ _
        · rcases ih x h1 with h2 | h2
          · left; exact List.mem_cons_of_mem _ h2
          · right; exact h2

theorem lookupA_isSome_setAssoc (l : List (κ × α)) (k k' : κ) (v : α)
    (h : (lookupA l k').isSome) :
    (lookupA (setAssoc l k v) k').isSome := by
  by_cases hk : k' = k
  · subst hk; simp [lookupA_setAssoc_self]
  · rw [lookupA_setAssoc_ne _ _ hk]; exact h

theorem mem_filterMap_setAssoc {f : κ × α → Option β} {l : List (κ × α)}
    {k : κ} {v : α} {x : β} (hx : x ∈ (setAssoc l k v).filterMap f) :
    x ∈ l.filterMap f ∨ f (k, v) = some x := by
  rcases List.mem_filterMap.mp hx with ⟨y, hy, hfy⟩
  rcases mem_setAssoc l k v y hy with h | h
  · left; exact List.mem_filterMap.mpr ⟨y, h, hfy⟩
  · right; rw [h] at hfy; exact hfy

end AssocLemmas

theorem fsRead_fsWrite (fs : Fs) (p q : FPath) (d : FileData) :
    fsRead (fsWrite fs p d) q = if q = p then some d else fsRead fs q := by
  by_cases h : q = p
  · subst h; simp [fsRead, fsWrite, lookupA_setAssoc_self]
  · simp [fsRead, fsWrite, lookupA_setAssoc_ne _ _ h, h]

theorem fsRead_fsWrite_self (fs : Fs) (p : FPath) (d : FileData) :
    fsRead (fsWrite fs p d) p = some d := by
  simp [fsRead_fsWrite]

theorem fsRead_fsWrite_ne (fs : Fs) {p q : FPath} (d : FileData)
    (h : q ≠ p) : fsRead (fsWrite fs p d) q = fsRead fs q := by
  simp [fsRead_fsWrite, h]

/-! ## Which paths each stage writes -/

theorem _sleep_fs (st : PState) : (_sleep st).fs = st.fs := rfl

theorem _get_article_fs_preserve (env : Env) (pmcid : Nat) (od : String)
    (st : PState) {p : FPath} (hp : p.ext ≠ "html") :
    fsRead (_get_article env pmcid od st).2.fs p = fsRead st.fs p := by
  unfold _get_article
  by_cases hc : isFile st.fs (articlePath od pmcid) = true
  · simp [hc]
  · simp only [Bool.not_eq_true] at hc
    simp only [hc, Bool.false_eq_true, if_false]
    cases henv : env.net (_PMC_URL_TEMPLATE pmcid) with
    | error e => simp [_sleep]
    | ok content =>
        simp only [_sleep]
        exact fsRead_fsWrite_ne _ _ (fun h => hp (by rw [h]; rfl))

theorem _get_tables_loop_fs_preserve (env : Env) (pmcid : Nat) (td : String)
    (ids : List String) {p : FPath} (hp : p.ext ≠ "html") :
    ∀ (id_info : List (String × String)) (st : PState),
      fsRead (_get_tables_loop env pmcid td ids id_info st).2.fs p =
        fsRead st.fs p := by
  induction ids with
  | nil => intro id_info st; simp [_get_tables_loop]
  | cons table_id rest ih =>
      intro id_info st
      unfold _get_tables_loop
      by_cases hc : isFile st.fs ⟨td, _short_hash table_id, "html"⟩ = true
      · simp only [hc, if_true]; exact ih _ _
      · simp only [Bool.not_eq_true] at hc
        simp only [hc, Bool.false_eq_true, if_false]
        cases henv : env.net (_PMC_TABLE_URL_TEMPLATE pmcid table_id) with
        | error e => simp [_sleep]
        | ok content =>
            simp only [_sleep]
            rw [ih _ _]
            exact fsRead_fsWrite_ne _ _ (fun h => hp (by rw [h]))

theorem _get_tables_fs_preserve (env : Env) (pmcid : Nat) (af : FPath)
    (od : String) (st : PState) {p : FPath} (hp1 : p.ext ≠ "html")
    (hp2 : p.ext ≠ "json") :
    fsRead (_get_tables env pmcid af od st).2.fs p = fsRead st.fs p := by
  unfold _get_tables
  cases hids : _get_table_ids env st.fs af with
  | error e => simp
  | ok all_table_ids =>
      simp only
      cases hloop : _get_tables_loop env pmcid (tablesDirPath od pmcid)
          all_table_ids [] st with
      | mk r st2 =>
          have hpres := _get_tables_loop_fs_preserve env pmcid
            (tablesDirPath od pmcid) all_table_ids hp1 [] st
          rw [hloop] at hpres
          cases r with
          | error e => simpa using hpres
          | ok id_info =>
              simp only
              rw [fsRead_fsWrite_ne _ _ (fun h => hp2 (by rw [h]; rfl))]
              exact hpres

theorem _get_coordinates_fs_preserve (env : Env) (pmcid : Nat) (td : String)
    (od : String) (st : PState) {p : FPath}
    (hp : p ≠ coordinatesPath od pmcid) :
    fsRead (_get_coordinates env pmcid td od st).2.fs p = fsRead st.fs p := by
  unfold _get_coordinates
  cases hj : fsRead st.fs (tableIdsPath td) with
  | none => simp
  | some d =>
      cases d with
      | raw c => simp
      | csv df => simp
      | jsonMap m =>
          simp only
          cases hloop : _get_coordinates_loop env pmcid m
              (globHtml st.fs td) [] with
          | error e => simp
          | ok all_coordinates =>
              simp only
              cases hres : (if all_coordinates = [] then
                  Except.ok (DataFrame.mk _COORD_FIELDS [])
                else (pdConcat all_coordinates).bind
                  (fun d => dfLoc d _COORD_FIELDS)) with
              | error e => simp
              | ok result => simp only; exact fsRead_fsWrite_ne _ _ hp

/-! ## Stage results leave the log unchanged (only the orchestrator logs
exception records) -/

theorem _get_article_log (env : Env) (pmcid : Nat) (od : String)
    (st : PState) : (_get_article env pmcid od st).2.log = st.log := by
  unfold _get_article
  by_cases hc : isFile st.fs (articlePath od pmcid) = true
  · simp [hc]
  · simp only [Bool.not_eq_true] at hc
    simp only [hc, Bool.false_eq_true, if_false]
    cases henv : env.net (_PMC_URL_TEMPLATE pmcid) with
    | error e => simp [_sleep]
    | ok content => simp [_sleep]

theorem _get_tables_loop_log (env : Env) (pmcid : Nat) (td : String)
    (ids : List String) :
    ∀ (id_info : List (String × String)) (st : PState),
      (_get_tables_loop env pmcid td ids id_info st).2.log = st.log := by
  induction ids with
  | nil => intro id_info st; simp [_get_tables_loop]
  | cons table_id rest ih =>
      intro id_info st
      unfold _get_tables_loop
      by_cases hc : isFile st.fs ⟨td, _short_hash table_id, "html"⟩ = true
      · simp only [hc, if_true]; exact ih _ _
      · simp only [Bool.not_eq_true] at hc
        simp only [hc, Bool.false_eq_true, if_false]
        cases henv : env.net (_PMC_TABLE_URL_TEMPLATE pmcid table_id) with
        | error e => simp [_sleep]
        | ok content => simp only [_sleep]; rw [ih _ _]

theorem _get_tables_log (env : Env) (pmcid : Nat) (af : FPath)
    (od : String) (st : PState) :
    (_get_tables env pmcid af od st).2.log = st.log := by
  unfold _get_tables
  cases hids : _get_table_ids env st.fs af with
  | error e => simp
  | ok all_table_ids =>
      simp only
      cases hloop : _get_tables_loop env pmcid (tablesDirPath od pmcid)
          all_table_ids [] st with
      | mk r st2 =>
          have hl := _get_tables_loop_log env pmcid (tablesDirPath od pmcid)
            all_table_ids [] st
          rw [hloop] at hl
          cases r with
          | error e => simpa using hl
          | ok id_info => simpa using hl

theorem _get_coordinates_log (env : Env) (pmcid : Nat) (td : String)
    (od : String) (st : PState) :
    (_get_coordinates env pmcid td od st).2.log = st.log := by
  unfold _get_coordinates
  cases hj : fsRead st.fs (tableIdsPath td) with
  | none => simp
  | some d =>
      cases d with
      | raw c => simp
      | csv df => simp
      | jsonMap m =>
          simp only
          cases hloop : _get_coordinates_loop env pmcid m
              (globHtml st.fs td) [] with
          | error e => simp
          | ok all_coordinates =>
              simp only
              cases hres : (if all_coordinates = [] then
                  Except.ok (DataFrame.mk _COORD_FIELDS [])
                else (pdConcat all_coordinates).bind
                  (fun d => dfLoc d _COORD_FIELDS)) with
              | error e => simp
              | ok result => simp

theorem mapM_id_ok (l : List Element)
    (h : ∀ el ∈ l, (lookupA el.attrs "id").isSome) :
    (l.mapM (fun tw => match lookupA tw.attrs "id" with
      | some i => Except.ok i
      | none => (Except.error "KeyError: id" : Except String String))) =
    Except.ok (l.map (fun el => (lookupA el.attrs "id").getD "")) := by
  induction l with
  | nil => rfl
  | cons hd tl ih =>
      obtain ⟨i, hi⟩ := Option.isSome_iff_exists.mp
        (h hd (List.mem_cons_self _ _))
      have ihh := ih (fun el hel => h el (List.mem_cons_of_mem _ hel))
      rw [List.mapM_cons, hi, ihh, List.map_cons]
      have hgd : (lookupA hd.attrs "id").getD "" = i := by rw [hi]; rfl
      rw [hgd]
      rfl

theorem _process_pmcid_log (env : Env) (pmcid : Nat) (od : String)
    (st : PState) : (_process_pmcid env pmcid od st).2.log = st.log := by
  unfold _process_pmcid
  cases ha : _get_article env pmcid od st with
  | mk r1 st1 =>
      have hl1 := _get_article_log env pmcid od st
      rw [ha] at hl1
      cases r1 with
      | error e => simpa using hl1
      | ok html_file =>
          simp only
          cases ht : _get_tables env pmcid html_file od st1 with
          | mk r2 st2 =>
              have hl2 := _get_tables_log env pmcid html_file od st1
              rw [ht] at hl2
              cases r2 with
              | error e => simp only; rw [hl2]; exact hl1
              | ok tables_dir =>
                  simp only
                  rw [_get_coordinates_log, hl2]
                  exact hl1

/-! ## Claim C2: cache hit performs no network call, no sleep, no write -/

/-- C2: a fetch whose destination file exists returns at once with the state
untouched (no network call, no sleep, no write) — both for the article
fetch and for a table fetch inside the per-article loop; a first fetch into
an absent destination performs exactly one network call, one sleep and one
write, and repeating it on the resulting state is the identity, so two
invocations perform one network call in total and the second leaves the
stored bytes unchanged. -/
theorem C2_theorem :
    (∀ (env : Env) (pmcid : Nat) (od : String) (st : PState),
        isFile st.fs (articlePath od pmcid) = true →
        _get_article env pmcid od st = (Except.ok (articlePath od pmcid), st)) ∧
    (∀ (env : Env) (pmcid : Nat) (od : String) (st : PState) (content : String),
        isFile st.fs (articlePath od pmcid) = false →
        env.net (_PMC_URL_TEMPLATE pmcid) = Except.ok content →
        _get_article env pmcid od st =
          (Except.ok (articlePath od pmcid),
            { fs := fsWrite st.fs (articlePath od pmcid) (FileData.raw content),
              nCalls := st.nCalls + 1, nSleeps := st.nSleeps + 1,
              log := st.log }) ∧
        _get_article env pmcid od
            { fs := fsWrite st.fs (articlePath od pmcid) (FileData.raw content),
              nCalls := st.nCalls + 1, nSleeps := st.nSleeps + 1,
              log := st.log } =
          (Except.ok (articlePath od pmcid),
            { fs := fsWrite st.fs (articlePath od pmcid) (FileData.raw content),
              nCalls := st.nCalls + 1, nSleeps := st.nSleeps + 1,
              log := st.log })) ∧
    (∀ (env : Env) (pmcid : Nat) (td : String) (table_id : String)
        (rest : List String) (info : List (String × String)) (st : PState),
        isFile st.fs ⟨td, _short_hash table_id, "html"⟩ = true →
        _get_tables_loop env pmcid td (table_id :: rest) info st =
          _get_tables_loop env pmcid td rest
            (setAssoc info (_short_hash table_id) table_id) st) := by
  refine ⟨?_, ?_, ?_⟩
  · intro env pmcid od st h
    unfold _get_article
    simp [h]
  · intro env pmcid od st content hmiss hok
    constructor
    · unfold _get_article
      simp [hmiss, _sleep, hok]
    · have hfile : isFile (fsWrite st.fs (articlePath od pmcid)
          (FileData.raw content)) (articlePath od pmcid) = true := by
        simp [isFile, fsRead_fsWrite_self]
      unfold _get_article
      simp [hfile]
  · intro env pmcid td table_id rest info st h
    simp only [_get_tables_loop, h, if_true]

def envC2 : Env :=
  { net := fun _ => Except.ok "BYTES",
    parseHtml := fun _ => Except.error "unused",
    readHtmlTable := fun _ => Except.error "unused",
    extractCoordinates := fun _ => Except.error "unused" }

def stC2 : PState := ⟨[], 0, 0, []⟩

def stC2b : PState :=
  { fs := fsWrite stC2.fs (articlePath "out" 5) (FileData.raw "BYTES"),
    nCalls := stC2.nCalls + 1, nSleeps := stC2.nSleeps + 1, log := stC2.log }

def stC2c : PState :=
  ⟨[(⟨"out/pmcid_3_tables", _short_hash "tabZ", "html"⟩, FileData.raw "T")],
    0, 0, []⟩

theorem C2_witness :
    (isFile stC2.fs (articlePath "out" 5) = false ∧
      envC2.net (_PMC_URL_TEMPLATE 5) = Except.ok "BYTES" ∧
      _get_article envC2 5 "out" stC2 = (Except.ok (articlePath "out" 5), stC2b) ∧
      _get_article envC2 5 "out" stC2b =
        (Except.ok (articlePath "out" 5), stC2b)) ∧
    (isFile stC2b.fs (articlePath "out" 5) = true ∧
      _get_article envC2 5 "out" stC2b =
        (Except.ok (articlePath "out" 5), stC2b)) ∧
    (isFile stC2c.fs ⟨"out/pmcid_3_tables", _short_hash "tabZ", "html"⟩ =
        true ∧
      _get_tables_loop envC2 3 "out/pmcid_3_tables" ["tabZ"] [] stC2c =
        _get_tables_loop envC2 3 "out/pmcid_3_tables" []
          (setAssoc [] (_short_hash "tabZ") "tabZ") stC2c) :=
  ⟨⟨rfl, rfl, (C2_theorem.2.1 envC2 5 "out" stC2 "BYTES" rfl rfl).1,
      (C2_theorem.2.1 envC2 5 "out" stC2 "BYTES" rfl rfl).2⟩,
    ⟨rfl, C2_theorem.1 envC2 5 "out" stC2b rfl⟩,
    ⟨rfl,
      C2_theorem.2.2 envC2 3 "out/pmcid_3_tables" "tabZ" [] [] stC2c rfl⟩⟩

/-! ## Claim C8: the table locator -/

/-- C8: on markup whose parse succeeds and in which every table-wrap
element carries an id attribute, _get_table_ids returns exactly the id of
each table-wrap element, in document order — hence exactly N identifiers
for N table-wrap elements, and the empty list (not an error) when there is
none. -/
theorem C8_theorem (env : Env) (fs : Fs) (article_file : FPath)
    (content : String) (elems : List Element)
    (hread : fsRead fs article_file = some (FileData.raw content))
    (hparse : env.parseHtml content = Except.ok elems)
    (hids : ∀ el ∈ elems, "table-wrap" ∈ el.classes →
      (lookupA el.attrs "id").isSome) :
    _get_table_ids env fs article_file =
      Except.ok
        ((elems.filter (fun el => decide ("table-wrap" ∈ el.classes))).map
          (fun el => (lookupA el.attrs "id").getD "")) ∧
    (∀ ids, _get_table_ids env fs article_file = Except.ok ids →
      ids.length =
        (elems.filter (fun el => decide ("table-wrap" ∈ el.classes))).length) ∧
    (elems.filter (fun el => decide ("table-wrap" ∈ el.classes)) = [] →
      _get_table_ids env fs article_file = Except.ok []) := by
  have hmain : _get_table_ids env fs article_file =
      Except.ok
        ((elems.filter (fun el => decide ("table-wrap" ∈ el.classes))).map
          (fun el => (lookupA el.attrs "id").getD "")) := by
    unfold _get_table_ids
    simp only [hread, hparse]
    exact mapM_id_ok _ (fun el hel =>
      hids el (List.mem_filter.mp hel).1
        (of_decide_eq_true (List.mem_filter.mp hel).2))
  refine ⟨hmain, ?_, ?_⟩
  · intro ids hids2
    rw [hmain] at hids2
    cases hids2
    simp
  · intro hempty
    rw [hmain, hempty]
    rfl

def envC8 : Env :=
  { net := fun _ => Except.error "unused",
    parseHtml := fun c =>
      if c = "PAGE" then
        Except.ok [⟨["table-wrap"], [("id", "tabA")]⟩,
          ⟨["figure"], [("id", "figB")]⟩,
          ⟨["table-wrap"], [("id", "tabC")]⟩]
      else Except.error "parse",
    readHtmlTable := fun _ => Except.error "unused",
    extractCoordinates := fun _ => Except.error "unused" }

def fsC8 : Fs := [(⟨"out", "pmcid_9_article", "html"⟩, FileData.raw "PAGE")]

/-! ## Claim C6: table-granular failure isolation in the extractor -/

theorem coord_loop_canonical (env : Env) (pmcid : Nat)
    (m : List (String × String)) (files : List (String × String)) :
    (∃ e, ∀ acc, _get_coordinates_loop env pmcid m files acc =
        Except.error e) ∨
    (∃ tail, ∀ acc, _get_coordinates_loop env pmcid m files acc =
        Except.ok (acc ++ tail)) := by
  induction files with
  | nil =>
      right
      exact ⟨[], fun acc => by simp [_get_coordinates_loop]⟩
  | cons hd rest ih =>
      obtain ⟨stem, content⟩ := hd
      cases hlk : lookupA m stem with
      | none =>
          left
          exact ⟨"KeyError", fun acc => by
            simp only [_get_coordinates_loop, hlk]⟩
      | some table_id =>
          cases hx : (env.readHtmlTable content).bind env.extractCoordinates with
          | error e =>
              rcases ih with ⟨e1, he⟩ | ⟨tail, ht⟩
              · left
                exact ⟨e1, fun acc => by
                  simp only [_get_coordinates_loop, hlk, hx]; exact he acc⟩
              · right
                exact ⟨tail, fun acc => by
                  simp only [_get_coordinates_loop, hlk, hx]; exact ht acc⟩
          | ok table0 =>
              rcases ih with ⟨e1, he⟩ | ⟨tail, ht⟩
              · left
                exact ⟨e1, fun acc => by
                  simp only [_get_coordinates_loop, hlk, hx]; exact he _⟩
              · right
                refine ⟨dfSetCol (dfSetCol table0 "table_id" (Val.str table_id))
                    "pmcid" (Val.int (pmcid : Int)) :: tail, fun acc => by
                  simp only [_get_coordinates_loop, hlk, hx]
                  rw [ht (acc ++ [_])]
                  simp⟩

/-- C6: a table whose parse or coordinate detection fails is skipped at
table granularity (the loop just moves on, no error, the accumulator is
untouched); the surviving tables' contribution is a tail independent of
the accumulated rows, so one failing table never removes another table's
rows; and when no table yields coordinates the extractor persists a
zero-row dataset with the five canonical columns instead of failing. -/
theorem C6_theorem :
    (∀ (env : Env) (pmcid : Nat) (m : List (String × String))
        (stem content : String) (rest : List (String × String))
        (acc : List DataFrame) (table_id e : String),
        lookupA m stem = some table_id →
        (env.readHtmlTable content).bind env.extractCoordinates =
          Except.error e →
        _get_coordinates_loop env pmcid m ((stem, content) :: rest) acc =
          _get_coordinates_loop env pmcid m rest acc) ∧
    (∀ (env : Env) (pmcid : Nat) (m : List (String × String))
        (files : List (String × String)) (acc l : List DataFrame),
        _get_coordinates_loop env pmcid m files acc = Except.ok l →
        ∃ tail, l = acc ++ tail ∧
          ∀ acc2, _get_coordinates_loop env pmcid m files acc2 =
            Except.ok (acc2 ++ tail)) ∧
    (∀ (env : Env) (pmcid : Nat) (td od : String) (st : PState)
        (m : List (String × String)),
        fsRead st.fs (tableIdsPath td) = some (FileData.jsonMap m) →
        _get_coordinates_loop env pmcid m (globHtml st.fs td) [] =
          Except.ok [] →
        _get_coordinates env pmcid td od st =
          (Except.ok (coordinatesPath od pmcid),
            { st with fs := fsWrite st.fs (coordinatesPath od pmcid) (FileData.csv (DataFrame.mk _COORD_FIELDS [])) })) := by
  refine ⟨?_, ?_, ?_⟩
  · intro env pmcid m stem content rest acc table_id e h1 h2
    simp only [_get_coordinates_loop, h1, h2]
  · intro env pmcid m files acc l hok
    rcases coord_loop_canonical env pmcid m files with ⟨e, he⟩ | ⟨tail, ht⟩
    · rw [he acc] at hok; cases hok
    · refine ⟨tail, ?_, ht⟩
      rw [ht acc] at hok
      exact (Except.ok.inj hok).symm
  · intro env pmcid td od st m hj hloop
    unfold _get_coordinates
    simp only [hj]
    rw [hloop]
    simp

def envC6 : Env :=
  { net := fun _ => Except.error "unused",
    parseHtml := fun _ => Except.error "unused",
    readHtmlTable := fun _ => Except.error "no tables found",
    extractCoordinates := fun _ => Except.error "unused" }

def stC6 : PState :=
  ⟨[(tableIdsPath "out/pmcid_3_tables", FileData.jsonMap [("s1", "tabX")])],
    0, 0, []⟩

theorem C6_witness :
    (lookupA [("s1", "tabX")] "s1" = some "tabX" ∧
      (envC6.readHtmlTable "c").bind envC6.extractCoordinates =
        Except.error "no tables found" ∧
      _get_coordinates_loop envC6 3 [("s1", "tabX")] [("s1", "c")] [] =
        _get_coordinates_loop envC6 3 [("s1", "tabX")] [] []) ∧
    (∃ tail, ([] : List DataFrame) = [] ++ tail ∧
      ∀ acc2, _get_coordinates_loop envC6 3 [("s1", "tabX")] [] acc2 =
        Except.ok (acc2 ++ tail)) ∧
    (fsRead stC6.fs (tableIdsPath "out/pmcid_3_tables") =
        some (FileData.jsonMap [("s1", "tabX")]) ∧
      _get_coordinates envC6 3 "out/pmcid_3_tables" "out" stC6 =
        (Except.ok (coordinatesPath "out" 3),
          { stC6 with fs := fsWrite stC6.fs (coordinatesPath "out" 3) (FileData.csv (DataFrame.mk _COORD_FIELDS [])) })) :=
  ⟨⟨rfl, rfl,
      C6_theorem.1 envC6 3 [("s1", "tabX")] "s1" "c" [] [] "tabX"
        "no tables found" rfl rfl⟩,
    C6_theorem.2.1 envC6 3 [("s1", "tabX")] [] [] [] rfl,
    ⟨rfl,
      C6_theorem.2.2 envC6 3 "out/pmcid_3_tables" "out" stC6
        [("s1", "tabX")] rfl rfl⟩⟩

/-! ## Path disjointness: the merged file is never touched per article -/

theorem all_coordinates_stem_ne (s t : String) :
    "all_coordinates" ≠ ("pmcid_" ++ s) ++ t := by
  obtain ⟨l⟩ := s
  obtain ⟨l2⟩ := t
  intro h
  have h2 := congrArg (fun u => u.data.head?) h
  have h3 : some 'a' = some 'p' := h2
  exact absurd (Option.some.inj h3) (by decide)

theorem mergedPath_ne_coordinatesPath (od od2 : String) (n : Nat) :
    mergedPath od ≠ coordinatesPath od2 n := by
  intro h
  exact all_coordinates_stem_ne (toString n) "_coordinates"
    (congrArg FPath.stem h)

theorem merged_ext_ne_html (od : String) : (mergedPath od).ext ≠ "html" :=
  fun h => (by decide : ("csv" : String) ≠ "html") h

theorem merged_ext_ne_json (od : String) : (mergedPath od).ext ≠ "json" :=
  fun h => (by decide : ("csv" : String) ≠ "json") h

theorem _process_pmcid_merged_preserve (env : Env) (pmcid : Nat)
    (od : String) (st : PState) (od2 : String) :
    fsRead (_process_pmcid env pmcid od st).2.fs (mergedPath od2) =
      fsRead st.fs (mergedPath od2) := by
  unfold _process_pmcid
  cases ha : _get_article env pmcid od st with
  | mk r1 st1 =>
      have h1 := @_get_article_fs_preserve env pmcid od st (mergedPath od2)
        (merged_ext_ne_html od2)
      rw [ha] at h1
      cases r1 with
      | error e => simpa using h1
      | ok html_file =>
          simp only
          cases ht : _get_tables env pmcid html_file od st1 with
          | mk r2 st2 =>
              have h2 := @_get_tables_fs_preserve env pmcid html_file od st1
                (mergedPath od2) (merged_ext_ne_html od2)
                (merged_ext_ne_json od2)
              rw [ht] at h2
              cases r2 with
              | error e => simp only; rw [h2]; exact h1
              | ok tables_dir =>
                  simp only
                  rw [_get_coordinates_fs_preserve env pmcid tables_dir od st2
                    (mergedPath_ne_coordinatesPath od2 od pmcid), h2]
                  exact h1

theorem _process_loop_merged_preserve (env : Env) (od od2 : String) :
    ∀ (pmcids : List Nat) (files : List FPath) (n : Nat) (st : PState),
      fsRead (_process_loop env od pmcids files n st).2.2.fs
          (mergedPath od2) =
        fsRead st.fs (mergedPath od2) := by
  intro pmcids
  induction pmcids with
  | nil => intro files n st; simp [_process_loop]
  | cons pmcid rest ih =>
      intro files n st
      unfold _process_loop
      cases hp : _process_pmcid env pmcid od st with
      | mk r st1 =>
          have h1 := _process_pmcid_merged_preserve env pmcid od st od2
          rw [hp] at h1
          cases r with
          | ok f => simp only; rw [ih]; exact h1
          | error e => simp only; rw [ih]; exact h1

/-! ## Claim C5: merging zero successes fails and writes nothing -/

/-- C5: when the orchestrator loop produced no per-article dataset (in
particular for an empty identifier list), the merge step raises (pandas
concat of an empty list) and the merged all_coordinates file is not
written. -/
theorem C5_theorem (env : Env) (all : List Nat) (od : String) (st : PState)
    (hzero : (_process_loop env od all [] 0 st).1 = []) :
    (∃ e, (_process_all_pmcids env all od st).1 = Except.error e) ∧
    fsRead (_process_all_pmcids env all od st).2.fs (mergedPath od) =
      fsRead st.fs (mergedPath od) := by
  have hpres := _process_loop_merged_preserve env od od all [] 0 st
  unfold _process_all_pmcids
  cases hloop : _process_loop env od all [] 0 st with
  | mk files rest =>
      obtain ⟨n, st1⟩ := rest
      rw [hloop] at hzero hpres
      simp only at hzero hpres
      subst hzero
      simp only [List.mapM_nil]
      exact ⟨⟨"ValueError: no objects to concatenate", rfl⟩, hpres⟩

def envC5 : Env :=
  { net := fun _ => Except.error "unused",
    parseHtml := fun _ => Except.error "unused",
    readHtmlTable := fun _ => Except.error "unused",
    extractCoordinates := fun _ => Except.error "unused" }

theorem C5_witness :
    (_process_loop envC5 "out" [] [] 0 ⟨[], 0, 0, []⟩).1 = [] ∧
    ((∃ e, (_process_all_pmcids envC5 [] "out" ⟨[], 0, 0, []⟩).1 =
        Except.error e) ∧
      fsRead (_process_all_pmcids envC5 [] "out" ⟨[], 0, 0, []⟩).2.fs
          (mergedPath "out") =
        fsRead (⟨[], 0, 0, []⟩ : PState).fs (mergedPath "out")) :=
  ⟨rfl, C5_theorem envC5 [] "out" ⟨[], 0, 0, []⟩ rfl⟩

/-! ## Claim C3: the batch loop isolates per-identifier failures -/

/-- C3: over any identifier list, the orchestrator loop attempts every
identifier (errors never abort it): each identifier either contributes one
dataset path or bumps the error counter by exactly one, the counter never
decreases, and the log gains exactly one exception record per failure,
each naming an identifier of the list. -/
theorem C3_theorem (env : Env) (od : String) :
    ∀ (pmcids : List Nat) (files : List FPath) (n : Nat) (st : PState),
      ∃ L,
        (_process_loop env od pmcids files n st).2.2.log = st.log ++ L ∧
        (∀ msg ∈ L, ∃ pmcid, pmcid ∈ pmcids ∧
          msg = "Failed to process PMCID " ++ toString pmcid) ∧
        L.length + n = (_process_loop env od pmcids files n st).2.1 ∧
        (_process_loop env od pmcids files n st).2.1 +
            (_process_loop env od pmcids files n st).1.length =
          n + files.length + pmcids.length ∧
        n ≤ (_process_loop env od pmcids files n st).2.1 := by
  intro pmcids
  induction pmcids with
  | nil =>
      intro files n st
      exact ⟨[], by simp [_process_loop], by simp, by simp [_process_loop],
        by simp [_process_loop], le_refl n⟩
  | cons pmcid rest ih =>
      intro files n st
      unfold _process_loop
      cases hp : _process_pmcid env pmcid od st with
      | mk r st1 =>
          have hlog := _process_pmcid_log env pmcid od st
          rw [hp] at hlog
          simp only at hlog
          cases r with
          | ok f =>
              simp only
              obtain ⟨L, hL1, hL2, hL3, hL4, hL5⟩ := ih (files ++ [f]) n st1
              refine ⟨L, ?_, ?_, hL3, ?_, hL5⟩
              · rw [hL1, hlog]
              · intro msg hmsg
                obtain ⟨q, hq1, hq2⟩ := hL2 msg hmsg
                exact ⟨q, List.mem_cons_of_mem _ hq1, hq2⟩
              · simp only [List.length_append, List.length_cons,
                  List.length_nil] at hL4 ⊢
                omega
          | error e =>
              simp only
              obtain ⟨L, hL1, hL2, hL3, hL4, hL5⟩ := ih files (n + 1)
                { st1 with
                    log := st1.log ++
                      ["Failed to process PMCID " ++ toString pmcid] }
              refine ⟨("Failed to process PMCID " ++ toString pmcid) :: L,
                ?_, ?_, ?_, ?_, ?_⟩
              · rw [hL1]
                simp only [hlog]
                simp
              · intro msg hmsg
                rcases List.mem_cons.mp hmsg with h | h
                · exact ⟨pmcid, List.mem_cons_self _ _, h⟩
                · obtain ⟨q, hq1, hq2⟩ := hL2 msg h
                  exact ⟨q, List.mem_cons_of_mem _ hq1, hq2⟩
              · simp only [List.length_cons]
                omega
              · simp only [List.length_cons]
                omega
              · omega

/-! ## Claim C1: a table fetch failure aborts the article and skips the
mapping write -/

theorem json_ext_ne_html (td : String) : (tableIdsPath td).ext ≠ "html" :=
  fun h => (by decide : ("json" : String) ≠ "html") h

/-- C1 (amended): the mapping file is persisted only when every table
fetch succeeds or is cached; when any table fetch fails, _get_tables
propagates the error and the table_ids mapping entry of the filesystem is
left exactly as it was (in particular it is not written), while on success
the mapping file is always written. -/
theorem C1_theorem (env : Env) (pmcid : Nat) (af : FPath) (od : String)
    (st : PState) :
    (∀ e, (_get_tables env pmcid af od st).1 = Except.error e →
      fsRead (_get_tables env pmcid af od st).2.fs
          (tableIdsPath (tablesDirPath od pmcid)) =
        fsRead st.fs (tableIdsPath (tablesDirPath od pmcid))) ∧
    (∀ td, (_get_tables env pmcid af od st).1 = Except.ok td →
      ∃ m, fsRead (_get_tables env pmcid af od st).2.fs (tableIdsPath td) =
        some (FileData.jsonMap m)) := by
  unfold _get_tables
  cases hids : _get_table_ids env st.fs af with
  | error e => exact ⟨fun e2 h => rfl, fun td h => by cases h⟩
  | ok all_table_ids =>
      simp only
      cases hloop : _get_tables_loop env pmcid (tablesDirPath od pmcid)
          all_table_ids [] st with
      | mk r st2 =>
          have hpres := @_get_tables_loop_fs_preserve env pmcid
            (tablesDirPath od pmcid) all_table_ids
            (tableIdsPath (tablesDirPath od pmcid))
            (json_ext_ne_html (tablesDirPath od pmcid)) [] st
          rw [hloop] at hpres
          cases r with
          | error e =>
              constructor
              · intro e2 h
                exact hpres
              · intro td h
                simp at h
          | ok id_info =>
              constructor
              · intro e2 h
                simp at h
              · intro td h
                simp only [Except.ok.injEq] at h
                subst h
                exact ⟨id_info, fsRead_fsWrite_self _ _ _⟩

def envC1 : Env :=
  { net := fun u =>
      if u = _PMC_TABLE_URL_TEMPLATE 7 "T1" then Except.ok "C1"
      else Except.error "500",
    parseHtml := fun c =>
      if c = "PAGE" then
        Except.ok [⟨["table-wrap"], [("id", "T1")]⟩,
          ⟨["table-wrap"], [("id", "T2")]⟩,
          ⟨["table-wrap"], [("id", "T3")]⟩]
      else Except.error "parse",
    readHtmlTable := fun _ => Except.error "unused",
    extractCoordinates := fun _ => Except.error "unused" }

def stC1 : PState := ⟨[(articlePath "out" 7, FileData.raw "PAGE")], 0, 0, []⟩

/-- C1 (counterexample): an article with tables T1, T2, T3 whose second
table fetch fails: _get_tables raises, the table_ids mapping file is not
written, T3 is never fetched (only two network calls, no T3 file), so a
single table fetch failure does abort the remaining fetches and the
mapping write — contradicting the claim. -/
theorem C1_counterexample :
    (_get_tables envC1 7 (articlePath "out" 7) "out" stC1).1 =
      Except.error "500" ∧
    fsRead (_get_tables envC1 7 (articlePath "out" 7) "out" stC1).2.fs
      (tableIdsPath (tablesDirPath "out" 7)) = none ∧
    fsRead (_get_tables envC1 7 (articlePath "out" 7) "out" stC1).2.fs
      ⟨tablesDirPath "out" 7, _short_hash "T1", "html"⟩ =
        some (FileData.raw "C1") ∧
    fsRead (_get_tables envC1 7 (articlePath "out" 7) "out" stC1).2.fs
      ⟨tablesDirPath "out" 7, _short_hash "T3", "html"⟩ = none ∧
    (_get_tables envC1 7 (articlePath "out" 7) "out" stC1).2.nCalls = 2 :=
  ⟨rfl, rfl, rfl, rfl, rfl⟩

def envC1ok : Env :=
  { net := fun _ => Except.ok "C",
    parseHtml := fun c =>
      if c = "PAGE" then Except.ok [⟨["table-wrap"], [("id", "T1")]⟩]
      else Except.error "parse",
    readHtmlTable := fun _ => Except.error "unused",
    extractCoordinates := fun _ => Except.error "unused" }

theorem C1_witness :
    ((_get_tables envC1 7 (articlePath "out" 7) "out" stC1).1 =
        Except.error "500" ∧
      fsRead (_get_tables envC1 7 (articlePath "out" 7) "out" stC1).2.fs
          (tableIdsPath (tablesDirPath "out" 7)) =
        fsRead stC1.fs (tableIdsPath (tablesDirPath "out" 7))) ∧
    ((_get_tables envC1ok 7 (articlePath "out" 7) "out" stC1).1 =
        Except.ok (tablesDirPath "out" 7) ∧
      ∃ m,
        fsRead (_get_tables envC1ok 7 (articlePath "out" 7) "out" stC1).2.fs
            (tableIdsPath (tablesDirPath "out" 7)) =
          some (FileData.jsonMap m)) :=
  ⟨⟨rfl, (C1_theorem envC1 7 (articlePath "out" 7) "out" stC1).1 "500" rfl⟩,
    ⟨rfl, (C1_theorem envC1ok 7 (articlePath "out" 7) "out" stC1).2
      (tablesDirPath "out" 7) rfl⟩⟩

/-! ## Claim C9: artifact naming -/

/-- Modelled from the spec: the output-layout section names the raw
article page artifact with the bare article identifier as prefix. -/
def specArticlePath (od : String) (article_id : Nat) : FPath :=
  ⟨od, toString article_id ++ "_article", "html"⟩

/-- Modelled from the spec: the output-layout section likewise names the
per-article dataset artifact with the bare article identifier as prefix. -/
def specCoordinatesPath (od : String) (article_id : Nat) : FPath :=
  ⟨od, toString article_id ++ "_coordinates", "csv"⟩

/-- C9 (amended): a successful fetch persists the raw article page at
pmcid_{article_id}_article.html and a successful extraction persists the
per-article dataset at pmcid_{article_id}_coordinates.csv (not at the
bare {article_id}-prefixed names of the spec's layout section). -/
theorem C9_theorem (env : Env) (pmcid : Nat) (od : String) (st : PState) :
    (∀ f st2, _get_article env pmcid od st = (Except.ok f, st2) →
      f = articlePath od pmcid ∧ ∃ d, fsRead st2.fs f = some d) ∧
    (∀ td f st2, _get_coordinates env pmcid td od st = (Except.ok f, st2) →
      f = coordinatesPath od pmcid ∧
        ∃ df, fsRead st2.fs f = some (FileData.csv df)) := by
  constructor
  · intro f st2 h
    unfold _get_article at h
    by_cases hc : isFile st.fs (articlePath od pmcid) = true
    · rw [if_pos hc] at h
      simp only [Prod.mk.injEq, Except.ok.injEq] at h
      obtain ⟨h1, h2⟩ := h
      subst h1
      subst h2
      exact ⟨rfl, Option.isSome_iff_exists.mp hc⟩
    · rw [if_neg hc] at h
      simp only [_sleep] at h
      cases henv : env.net (_PMC_URL_TEMPLATE pmcid) with
      | error e => rw [henv] at h; simp at h
      | ok content =>
          rw [henv] at h
          simp only [Prod.mk.injEq, Except.ok.injEq] at h
          obtain ⟨h1, h2⟩ := h
          subst h1
          subst h2
          exact ⟨rfl, ⟨_, fsRead_fsWrite_self _ _ _⟩⟩
  · intro td f st2 h
    unfold _get_coordinates at h
    cases hj : fsRead st.fs (tableIdsPath td) with
    | none => rw [hj] at h; simp at h
    | some d =>
        cases d with
        | raw c => rw [hj] at h; simp at h
        | csv df => rw [hj] at h; simp at h
        | jsonMap m =>
            rw [hj] at h
            simp only at h
            cases hloop : _get_coordinates_loop env pmcid m
                (globHtml st.fs td) [] with
            | error e => rw [hloop] at h; simp at h
            | ok all_coordinates =>
                rw [hloop] at h
                simp only at h
                cases hres : (if all_coordinates = [] then
                    Except.ok (DataFrame.mk _COORD_FIELDS [])
                  else (pdConcat all_coordinates).bind
                    (fun d => dfLoc d _COORD_FIELDS)) with
                | error e => rw [hres] at h; simp at h
                | ok result =>
                    rw [hres] at h
                    simp only [Prod.mk.injEq, Except.ok.injEq] at h
                    obtain ⟨h1, h2⟩ := h
                    subst h1
                    subst h2
                    exact ⟨rfl, ⟨result, fsRead_fsWrite_self _ _ _⟩⟩

def envC9 : Env :=
  { net := fun _ => Except.ok "PAGE",
    parseHtml := fun _ => Except.error "unused",
    readHtmlTable := fun _ => Except.error "unused",
    extractCoordinates := fun _ => Except.error "unused" }

def stC9 : PState :=
  ⟨[(tableIdsPath "out/pmcid_100_tables", FileData.jsonMap [])], 0, 0, []⟩

/-- C9 (counterexample): processing article 100 persists the raw page at
pmcid_100_article.html and the dataset at pmcid_100_coordinates.csv; the
spec layout's names 100_article.html and 100_coordinates.csv are not
created, so the claim's "exactly as the output directory layout names
them" fails. -/
theorem C9_counterexample :
    ((_get_article envC9 100 "out" ⟨[], 0, 0, []⟩).1 =
        Except.ok (articlePath "out" 100) ∧
      fsRead (_get_article envC9 100 "out" ⟨[], 0, 0, []⟩).2.fs
          (articlePath "out" 100) = some (FileData.raw "PAGE") ∧
      fsRead (_get_article envC9 100 "out" ⟨[], 0, 0, []⟩).2.fs
          (specArticlePath "out" 100) = none) ∧
    ((_get_coordinates envC9 100 "out/pmcid_100_tables" "out" stC9).1 =
        Except.ok (coordinatesPath "out" 100) ∧
      fsRead (_get_coordinates envC9 100 "out/pmcid_100_tables" "out"
            stC9).2.fs (coordinatesPath "out" 100) =
        some (FileData.csv (DataFrame.mk _COORD_FIELDS [])) ∧
      fsRead (_get_coordinates envC9 100 "out/pmcid_100_tables" "out"
            stC9).2.fs (specCoordinatesPath "out" 100) = none) :=
  ⟨⟨rfl, rfl, rfl⟩, ⟨rfl, rfl, rfl⟩⟩

theorem C9_witness :
    (_get_article envC9 100 "out" ⟨[], 0, 0, []⟩ =
        (Except.ok (articlePath "out" 100),
          ⟨fsWrite [] (articlePath "out" 100) (FileData.raw "PAGE"),
            1, 1, []⟩) ∧
      (articlePath "out" 100 = articlePath "out" 100 ∧
        ∃ d, fsRead (fsWrite [] (articlePath "out" 100)
            (FileData.raw "PAGE")) (articlePath "out" 100) = some d)) ∧
    (_get_coordinates envC9 100 "out/pmcid_100_tables" "out" stC9 =
        (Except.ok (coordinatesPath "out" 100),
          ⟨fsWrite stC9.fs (coordinatesPath "out" 100)
              (FileData.csv (DataFrame.mk _COORD_FIELDS [])), 0, 0, []⟩) ∧
      (coordinatesPath "out" 100 = coordinatesPath "out" 100 ∧
        ∃ df, fsRead (fsWrite stC9.fs (coordinatesPath "out" 100)
              (FileData.csv (DataFrame.mk _COORD_FIELDS [])))
            (coordinatesPath "out" 100) = some (FileData.csv df))) :=
  ⟨⟨rfl, (C9_theorem envC9 100 "out" ⟨[], 0, 0, []⟩).1
      (articlePath "out" 100)
      ⟨fsWrite [] (articlePath "out" 100) (FileData.raw "PAGE"), 1, 1, []⟩
      rfl⟩,
    ⟨rfl, (C9_theorem envC9 100 "out" stC9).2 "out/pmcid_100_tables"
      (coordinatesPath "out" 100)
      ⟨fsWrite stC9.fs (coordinatesPath "out" 100)
          (FileData.csv (DataFrame.mk _COORD_FIELDS [])), 0, 0, []⟩
      rfl⟩⟩

/-! ## Claim C4: short-name collisions -/

theorem lookupA_eq_none_iff {κ α : Type} [DecidableEq κ]
    (l : List (κ × α)) (k : κ) :
    lookupA l k = none ↔ k ∉ l.map Prod.fst := by
  induction l with
  | nil => simp [lookupA]
  | cons hd tl ih =>
      obtain ⟨k1, v1⟩ := hd
      by_cases h : k1 = k
      · subst h
        simp [lookupA]
      · simp only [lookupA, if_neg h, List.map_cons, List.mem_cons, ih]
        constructor
        · intro h1 h2
          rcases h2 with h2 | h2
          · exact h h2.symm
          · exact h1 h2
        · intro h1 h2
          exact h1 (Or.inr h2)

theorem map_fst_setAssoc {κ α : Type} [DecidableEq κ]
    (l : List (κ × α)) (k : κ) (v : α) :
    (setAssoc l k v).map Prod.fst =
      if (lookupA l k).isSome then l.map Prod.fst
      else l.map Prod.fst ++ [k] := by
  induction l with
  | nil => simp [setAssoc, lookupA]
  | cons hd tl ih =>
      obtain ⟨k1, v1⟩ := hd
      by_cases h : k1 = k
      · subst h
        simp [setAssoc, lookupA]
      · simp only [setAssoc, if_neg h, lookupA, List.map_cons]
        rw [ih]
        by_cases h2 : (lookupA tl k).isSome
        · simp [h, h2]
        · simp [h, h2]

theorem setAssoc_keys_nodup {κ α : Type} [DecidableEq κ]
    (l : List (κ × α)) (k : κ) (v : α)
    (h : (l.map Prod.fst).Nodup) :
    ((setAssoc l k v).map Prod.fst).Nodup := by
  rw [map_fst_setAssoc]
  by_cases h2 : (lookupA l k).isSome
  · simpa [h2] using h
  · have h3 : lookupA l k = none := by
      cases h4 : lookupA l k with
      | none => rfl
      | some v2 => rw [h4] at h2; simp at h2
    have h5 : k ∉ l.map Prod.fst := (lookupA_eq_none_iff l k).mp h3
    simp only [h2, if_false]
    simp [List.nodup_append, h, h5]

/-- What a successful _get_tables loop run does to the id_info dict:
entries untouched by the processed identifiers survive; with pairwise
distinct short names every identifier can be looked up back via its short
name; every entry comes from the initial dict or from a processed
identifier; and distinct keys stay distinct. -/
theorem gtloop_info (env : Env) (pmcid : Nat) (td : String) :
    ∀ (ids : List String) (info : List (String × String)) (st : PState)
      (r : List (String × String)) (st2 : PState),
      _get_tables_loop env pmcid td ids info st = (Except.ok r, st2) →
      (∀ k, (∀ id ∈ ids, _short_hash id ≠ k) →
        lookupA r k = lookupA info k) ∧
      (ids.Pairwise (fun a b => _short_hash a ≠ _short_hash b) →
        ∀ id ∈ ids, lookupA r (_short_hash id) = some id) ∧
      (∀ kv ∈ r, kv ∈ info ∨ (kv.2 ∈ ids ∧ kv.1 = _short_hash kv.2)) ∧
      ((info.map Prod.fst).Nodup → (r.map Prod.fst).Nodup) := by
  intro ids
  induction ids with
  | nil =>
      intro info st r st2 h
      simp only [_get_tables_loop, Prod.mk.injEq, Except.ok.injEq] at h
      obtain ⟨h1, h2⟩ := h
      subst h1
      exact ⟨fun k _ => rfl, fun _ id hid => absurd hid (List.not_mem_nil id),
        fun kv hkv => Or.inl hkv, fun h => h⟩
  | cons id rest ih =>
      intro info st r st2 h
      have hmain : ∀ (st3 : PState),
          _get_tables_loop env pmcid td rest
              (setAssoc info (_short_hash id) id) st3 = (Except.ok r, st2) →
          (∀ k, (∀ id2 ∈ id :: rest, _short_hash id2 ≠ k) →
            lookupA r k = lookupA info k) ∧
          ((id :: rest).Pairwise (fun a b => _short_hash a ≠ _short_hash b) →
            ∀ id2 ∈ id :: rest, lookupA r (_short_hash id2) = some id2) ∧
          (∀ kv ∈ r, kv ∈ info ∨
            (kv.2 ∈ id :: rest ∧ kv.1 = _short_hash kv.2)) ∧
          ((info.map Prod.fst).Nodup → (r.map Prod.fst).Nodup) := by
        intro st3 h2
        obtain ⟨ihP0, ihP1, ihP2, ihP3⟩ := ih
          (setAssoc info (_short_hash id) id) st3 r st2 h2
        refine ⟨?_, ?_, ?_, ?_⟩
        · intro k hk
          rw [ihP0 k (fun id2 hid2 => hk id2 (List.mem_cons_of_mem _ hid2))]
          exact lookupA_setAssoc_ne info id
            (fun hh => hk id (List.mem_cons_self _ _) hh.symm)
        · intro hdist id2 hid2
          have hdh := List.pairwise_cons.mp hdist
          rcases List.mem_cons.mp hid2 with hcase | hcase
          · subst hcase
            rw [ihP0 (_short_hash id2)
              (fun id3 hid3 => hdh.1 id3 hid3 ∘ Eq.symm)]
            exact lookupA_setAssoc_self info _ id2
          · exact ihP1 hdh.2 id2 hcase
        · intro kv hkv
          rcases ihP2 kv hkv with hcase | hcase
          · rcases mem_setAssoc info _ id kv hcase with h3 | h3
            · exact Or.inl h3
            · subst h3
              exact Or.inr ⟨List.mem_cons_self _ _, rfl⟩
          · exact Or.inr ⟨List.mem_cons_of_mem _ hcase.1, hcase.2⟩
        · intro hnd
          exact ihP3 (setAssoc_keys_nodup info _ id hnd)
      unfold _get_tables_loop at h
      by_cases hc : isFile st.fs ⟨td, _short_hash id, "html"⟩ = true
      · rw [if_pos hc] at h
        exact hmain st h
      · rw [if_neg hc] at h
        simp only [_sleep] at h
        cases henv : env.net (_PMC_TABLE_URL_TEMPLATE pmcid id) with
        | error e => rw [henv] at h; simp at h
        | ok content =>
            rw [henv] at h
            exact hmain _ h

/-- C4 (amended): _get_tables performs no collision check at all.  When
the short names are pairwise distinct the persisted mapping is a bijection
(looking up any identifier's short name recovers it, every entry comes
from the identifier list, keys are distinct); but on a collision nothing
fails loudly: the run succeeds, the colliding short name maps to the later
identifier while the stored table file keeps the earlier identifier's
content (see the counterexample). -/
theorem C4_theorem (env : Env) (pmcid : Nat) (af : FPath) (od : String)
    (st : PState) (ids : List String)
    (hids : _get_table_ids env st.fs af = Except.ok ids)
    (hnodup : ids.Nodup)
    (hdist : ids.Pairwise (fun a b => _short_hash a ≠ _short_hash b))
    (td : String)
    (hok : (_get_tables env pmcid af od st).1 = Except.ok td) :
    ∃ m, fsRead (_get_tables env pmcid af od st).2.fs (tableIdsPath td) =
        some (FileData.jsonMap m) ∧
      (∀ id ∈ ids, lookupA m (_short_hash id) = some id) ∧
      (∀ kv ∈ m, kv.2 ∈ ids ∧ kv.1 = _short_hash kv.2) ∧
      (m.map Prod.fst).Nodup := by
  unfold _get_tables at hok ⊢
  rw [hids] at hok ⊢
  simp only at hok ⊢
  cases hloop : _get_tables_loop env pmcid (tablesDirPath od pmcid) ids
      [] st with
  | mk rr st2 =>
      rw [hloop] at hok
      cases rr with
      | error e => simp at hok
      | ok id_info =>
          simp only [Except.ok.injEq] at hok
          subst hok
          obtain ⟨hP0, hP1, hP2, hP3⟩ :=
            gtloop_info env pmcid (tablesDirPath od pmcid) ids [] st
              id_info st2 hloop
          refine ⟨id_info, fsRead_fsWrite_self _ _ _, hP1 hdist, ?_, ?_⟩
          · intro kv hkv
            rcases hP2 kv hkv with h | h
            · cases h
            · exact h
          · exact hP3 (by simp)

def envC4 : Env :=
  { net := fun u =>
      if u = _PMC_TABLE_URL_TEMPLATE 7 "T1313" then Except.ok "FIRST"
      else if u = _PMC_TABLE_URL_TEMPLATE 7 "T8216" then Except.ok "SECOND"
      else Except.error "404",
    parseHtml := fun c =>
      if c = "PAGE" then
        Except.ok [⟨["table-wrap"], [("id", "T1313")]⟩,
          ⟨["table-wrap"], [("id", "T8216")]⟩]
      else Except.error "parse",
    readHtmlTable := fun _ => Except.error "unused",
    extractCoordinates := fun _ => Except.error "unused" }

def stC4 : PState := ⟨[(articlePath "out" 7, FileData.raw "PAGE")], 0, 0, []⟩

/-- C4 (counterexample): T1313 and T8216 are distinct identifiers with the
same md5-derived 6-character short name 92b401.  _get_tables succeeds (no
loud failure), fetches only the first table (one network call), keeps the
first table's content under the shared name, and the persisted mapping's
only entry maps the shared short name to the second identifier — a silent
overwrite, refuting the claim. -/
theorem C4_counterexample :
    _short_hash "T1313" = "92b401" ∧
    _short_hash "T8216" = "92b401" ∧
    (_get_tables envC4 7 (articlePath "out" 7) "out" stC4).1 =
      Except.ok (tablesDirPath "out" 7) ∧
    fsRead (_get_tables envC4 7 (articlePath "out" 7) "out" stC4).2.fs
        (tableIdsPath (tablesDirPath "out" 7)) =
      some (FileData.jsonMap [("92b401", "T8216")]) ∧
    fsRead (_get_tables envC4 7 (articlePath "out" 7) "out" stC4).2.fs
        ⟨tablesDirPath "out" 7, "92b401", "html"⟩ =
      some (FileData.raw "FIRST") ∧
    (_get_tables envC4 7 (articlePath "out" 7) "out" stC4).2.nCalls = 1 :=
  ⟨rfl, rfl, rfl, rfl, rfl, rfl⟩

def envC4b : Env :=
  { net := fun _ => Except.ok "C",
    parseHtml := fun c =>
      if c = "PAGE" then
        Except.ok [⟨["table-wrap"], [("id", "t1")]⟩,
          ⟨["table-wrap"], [("id", "t2")]⟩]
      else Except.error "parse",
    readHtmlTable := fun _ => Except.error "unused",
    extractCoordinates := fun _ => Except.error "unused" }

theorem C4_witness :
    _get_table_ids envC4b stC4.fs (articlePath "out" 7) =
      Except.ok ["t1", "t2"] ∧
    (["t1", "t2"] : List String).Nodup ∧
    (["t1", "t2"] : List String).Pairwise
      (fun a b => _short_hash a ≠ _short_hash b) ∧
    (_get_tables envC4b 7 (articlePath "out" 7) "out" stC4).1 =
      Except.ok (tablesDirPath "out" 7) ∧
    (∃ m, fsRead (_get_tables envC4b 7 (articlePath "out" 7) "out"
          stC4).2.fs (tableIdsPath (tablesDirPath "out" 7)) =
        some (FileData.jsonMap m) ∧
      (∀ id ∈ (["t1", "t2"] : List String),
        lookupA m (_short_hash id) = some id) ∧
      (∀ kv ∈ m, kv.2 ∈ (["t1", "t2"] : List String) ∧
        kv.1 = _short_hash kv.2) ∧
      (m.map Prod.fst).Nodup) :=
  ⟨rfl, by decide, by decide, rfl,
    C4_theorem envC4b 7 (articlePath "out" 7) "out" stC4 ["t1", "t2"] rfl
      (by decide) (by decide) (tablesDirPath "out" 7) rfl⟩

/-! ## Claim C10: html stems versus mapping keys -/

theorem globHtml_fsWrite_mem (fs : Fs) (p : FPath) (d : FileData)
    (dir : String) {x : String × String}
    (hx : x ∈ globHtml (fsWrite fs p d) dir) :
    x ∈ globHtml fs dir ∨
      ∃ c, d = FileData.raw c ∧ p.dir = dir ∧ p.ext = "html" ∧
        x = (p.stem, c) := by
  rcases mem_filterMap_setAssoc hx with h | h
  · left; exact h
  · right
    cases d with
    | raw c =>
        simp only at h
        by_cases hcond : p.dir = dir ∧ p.ext = "html"
        · rw [if_pos hcond] at h
          exact ⟨c, rfl, hcond.1, hcond.2, (Option.some.inj h).symm⟩
        · rw [if_neg hcond] at h
          cases h
    | jsonMap m => simp only at h; cases h
    | csv df => simp only at h; cases h

/-- After a successful _get_tables loop run from a state where every html
stem under the tables directory already keys the dict, every html stem
under the directory keys the resulting dict. -/
theorem gtloop_glob (env : Env) (pmcid : Nat) (td : String) :
    ∀ (ids : List String) (info : List (String × String)) (st : PState)
      (r : List (String × String)) (st2 : PState),
      _get_tables_loop env pmcid td ids info st = (Except.ok r, st2) →
      (∀ x ∈ globHtml st.fs td, (lookupA info x.1).isSome) →
      ∀ x ∈ globHtml st2.fs td, (lookupA r x.1).isSome := by
  intro ids
  induction ids with
  | nil =>
      intro info st r st2 h hpre
      simp only [_get_tables_loop, Prod.mk.injEq, Except.ok.injEq] at h
      obtain ⟨h1, h2⟩ := h
      subst h1
      subst h2
      exact hpre
  | cons id rest ih =>
      intro info st r st2 h hpre
      unfold _get_tables_loop at h
      by_cases hc : isFile st.fs ⟨td, _short_hash id, "html"⟩ = true
      · rw [if_pos hc] at h
        exact ih _ _ _ _ h
          (fun x hx => lookupA_isSome_setAssoc info _ x.1 id (hpre x hx))
      · rw [if_neg hc] at h
        simp only [_sleep] at h
        cases henv : env.net (_PMC_TABLE_URL_TEMPLATE pmcid id) with
        | error e => rw [henv] at h; simp at h
        | ok content =>
            rw [henv] at h
            refine ih _ _ _ _ h ?_
            intro x hx
            rcases globHtml_fsWrite_mem _ _ _ _ hx with h2 | ⟨c, _, _, _, hx2⟩
            · exact lookupA_isSome_setAssoc info _ x.1 id (hpre x h2)
            · subst hx2
              simp only
              rw [lookupA_setAssoc_self]
              rfl

theorem gcloop_missing_stem (env : Env) (pmcid : Nat)
    (m : List (String × String)) :
    ∀ (files : List (String × String)) (stem content : String),
      (stem, content) ∈ files → lookupA m stem = none →
      ∀ acc, ∃ e, _get_coordinates_loop env pmcid m files acc =
        Except.error e := by
  intro files
  induction files with
  | nil =>
      intro stem content hmem _ _
      exact absurd hmem (List.not_mem_nil _)
  | cons hd rest ih =>
      obtain ⟨s, c⟩ := hd
      intro stem content hmem hnone acc
      rcases List.mem_cons.mp hmem with hcase | hcase
      · obtain ⟨hs, _⟩ := Prod.mk.injEq .. ▸ hcase
        subst hs
        exact ⟨"KeyError", by simp only [_get_coordinates_loop, hnone]⟩
      · cases hlk : lookupA m s with
        | none => exact ⟨"KeyError", by simp only [_get_coordinates_loop, hlk]⟩
        | some tid =>
            cases hx : (env.readHtmlTable c).bind env.extractCoordinates with
            | error e =>
                obtain ⟨e2, he2⟩ := ih stem content hcase hnone acc
                exact ⟨e2, by simp only [_get_coordinates_loop, hlk, hx]
                              exact he2⟩
            | ok t0 =>
                obtain ⟨e2, he2⟩ := ih stem content hcase hnone
                  (acc ++ [dfSetCol (dfSetCol t0 "table_id" (Val.str tid))
                    "pmcid" (Val.int (pmcid : Int))])
                exact ⟨e2, by simp only [_get_coordinates_loop, hlk, hx]
                              exact he2⟩

/-- C10: after a successful _get_tables run over a tables directory that
held no html file beforehand, every html stem in the directory is a key of
the persisted mapping (so the extractor's lookup succeeds for each file);
conversely, when the directory holds an html file whose stem is missing
from the stored mapping, _get_coordinates raises at the lookup — failing
the whole article with the state untouched — instead of skipping the file,
because the lookup happens outside the per-table handler. -/
theorem C10_theorem :
    (∀ (env : Env) (pmcid : Nat) (af : FPath) (od : String) (st : PState)
        (td : String),
      globHtml st.fs (tablesDirPath od pmcid) = [] →
      (_get_tables env pmcid af od st).1 = Except.ok td →
      ∃ m, fsRead (_get_tables env pmcid af od st).2.fs (tableIdsPath td) =
          some (FileData.jsonMap m) ∧
        ∀ x ∈ globHtml (_get_tables env pmcid af od st).2.fs td,
          (lookupA m x.1).isSome) ∧
    (∀ (env : Env) (pmcid : Nat) (td od : String) (st : PState)
        (m : List (String × String)) (stem content : String),
      fsRead st.fs (tableIdsPath td) = some (FileData.jsonMap m) →
      (stem, content) ∈ globHtml st.fs td →
      lookupA m stem = none →
      ∃ e, _get_coordinates env pmcid td od st = (Except.error e, st)) := by
  constructor
  · intro env pmcid af od st td hfresh hok
    unfold _get_tables at hok ⊢
    cases hids : _get_table_ids env st.fs af with
    | error e => rw [hids] at hok; cases hok
    | ok all_table_ids =>
        rw [hids] at hok
        simp only at hok ⊢
        cases hloop : _get_tables_loop env pmcid (tablesDirPath od pmcid)
            all_table_ids [] st with
        | mk rr st2 =>
            rw [hloop] at hok
            cases rr with
            | error e => simp at hok
            | ok id_info =>
                simp only [Except.ok.injEq] at hok
                subst hok
                refine ⟨id_info, fsRead_fsWrite_self _ _ _, ?_⟩
                intro x hx
                rcases globHtml_fsWrite_mem _ _ _ _ hx
                  with h2 | ⟨c, hraw, _, _, _⟩
                · refine gtloop_glob env pmcid (tablesDirPath od pmcid)
                    all_table_ids [] st id_info st2 hloop ?_ x h2
                  intro y hy
                  rw [hfresh] at hy
                  exact absurd hy (List.not_mem_nil y)
                · cases hraw
  · intro env pmcid td od st m stem content hj hmem hnone
    obtain ⟨e, he⟩ := gcloop_missing_stem env pmcid m (globHtml st.fs td)
      stem content hmem hnone []
    refine ⟨e, ?_⟩
    unfold _get_coordinates
    simp only [hj]
    rw [he]

def envC10 : Env :=
  { net := fun _ => Except.ok "C",
    parseHtml := fun c =>
      if c = "PAGE" then Except.ok [⟨["table-wrap"], [("id", "t1")]⟩]
      else Except.error "parse",
    readHtmlTable := fun _ => Except.error "unused",
    extractCoordinates := fun _ => Except.error "unused" }

def stC10 : PState :=
  ⟨[(articlePath "out" 7, FileData.raw "PAGE")], 0, 0, []⟩

def stC10b : PState :=
  ⟨[(tableIdsPath "out/pmcid_3_tables", FileData.jsonMap [("aa", "t9")]),
    (⟨"out/pmcid_3_tables", "zz", "html"⟩, FileData.raw "H")], 0, 0, []⟩

theorem C10_witness :
    (globHtml stC10.fs (tablesDirPath "out" 7) = [] ∧
      (_get_tables envC10 7 (articlePath "out" 7) "out" stC10).1 =
        Except.ok (tablesDirPath "out" 7) ∧
      ∃ m, fsRead (_get_tables envC10 7 (articlePath "out" 7) "out"
            stC10).2.fs (tableIdsPath (tablesDirPath "out" 7)) =
          some (FileData.jsonMap m) ∧
        ∀ x ∈ globHtml (_get_tables envC10 7 (articlePath "out" 7) "out"
            stC10).2.fs (tablesDirPath "out" 7), (lookupA m x.1).isSome) ∧
    (fsRead stC10b.fs (tableIdsPath "out/pmcid_3_tables") =
        some (FileData.jsonMap [("aa", "t9")]) ∧
      ("zz", "H") ∈ globHtml stC10b.fs "out/pmcid_3_tables" ∧
      lookupA [("aa", "t9")] "zz" = none ∧
      ∃ e, _get_coordinates envC10 3 "out/pmcid_3_tables" "out" stC10b =
        (Except.error e, stC10b)) :=
  ⟨⟨rfl, rfl,
      C10_theorem.1 envC10 7 (articlePath "out" 7) "out" stC10
        (tablesDirPath "out" 7) rfl rfl⟩,
    ⟨rfl, by decide, rfl,
      C10_theorem.2 envC10 3 "out/pmcid_3_tables" "out" stC10b
        [("aa", "t9")] "zz" "H" rfl (by decide) rfl⟩⟩

/-! ## Claim C7: the five-column invariant -/

/-- A path holds a csv whose columns are exactly the five canonical
coordinate fields. -/
def CsvF (fs : Fs) (p : FPath) : Prop :=
  ∃ df, fsRead fs p = some (FileData.csv df) ∧ df.cols = _COORD_FIELDS

theorem dfLoc_ok_cols (d : DataFrame) (fields : List String)
    (r : DataFrame) (h : dfLoc d fields = Except.ok r) : r.cols = fields := by
  unfold dfLoc at h
  by_cases hc : ∀ f ∈ fields, f ∈ d.cols
  · rw [if_pos hc] at h
    cases Except.ok.inj h
    rfl
  · rw [if_neg hc] at h
    cases h

/-- What _get_coordinates does to the filesystem: either nothing (an error
path) or it writes one csv with the five canonical columns at the article's
coordinates path. -/
theorem _get_coordinates_fs_cases (env : Env) (pmcid : Nat) (td od : String)
    (st : PState) :
    (_get_coordinates env pmcid td od st).2.fs = st.fs ∨
    ∃ df, df.cols = _COORD_FIELDS ∧
      (_get_coordinates env pmcid td od st).2.fs =
        fsWrite st.fs (coordinatesPath od pmcid) (FileData.csv df) := by
  unfold _get_coordinates
  cases hj : fsRead st.fs (tableIdsPath td) with
  | none => left; rfl
  | some d =>
      cases d with
      | raw c => left; rfl
      | csv df => left; rfl
      | jsonMap m =>
          simp only
          cases hloop : _get_coordinates_loop env pmcid m
              (globHtml st.fs td) [] with
          | error e => left; rfl
          | ok all_coordinates =>
              simp only
              by_cases hemp : all_coordinates = []
              · rw [if_pos hemp]
                right
                exact ⟨DataFrame.mk _COORD_FIELDS [], rfl, rfl⟩
              · rw [if_neg hemp]
                cases hcc : pdConcat all_coordinates with
                | error e => left; rfl
                | ok dcat =>
                    simp only [Except.bind]
                    cases hl : dfLoc dcat _COORD_FIELDS with
                    | error e => left; rfl
                    | ok result =>
                        right
                        exact ⟨result, dfLoc_ok_cols dcat _ result hl, rfl⟩

/-- On success _get_coordinates returns the coordinates path and that path
now holds a csv with the five canonical columns. -/
theorem _get_coordinates_ok_props (env : Env) (pmcid : Nat) (td od : String)
    (st : PState) (f : FPath) (st3 : PState)
    (h : _get_coordinates env pmcid td od st = (Except.ok f, st3)) :
    f = coordinatesPath od pmcid ∧ CsvF st3.fs f := by
  unfold _get_coordinates at h
  cases hj : fsRead st.fs (tableIdsPath td) with
  | none => rw [hj] at h; simp at h
  | some d =>
      cases d with
      | raw c => rw [hj] at h; simp at h
      | csv df => rw [hj] at h; simp at h
      | jsonMap m =>
          rw [hj] at h
          simp only at h
          cases hloop : _get_coordinates_loop env pmcid m
              (globHtml st.fs td) [] with
          | error e => rw [hloop] at h; simp at h
          | ok all_coordinates =>
              rw [hloop] at h
              simp only at h
              by_cases hemp : all_coordinates = []
              · rw [if_pos hemp] at h
                simp only [Prod.mk.injEq, Except.ok.injEq] at h
                obtain ⟨h1, h2⟩ := h
                subst h1
                subst h2
                exact ⟨rfl, DataFrame.mk _COORD_FIELDS [],
                  fsRead_fsWrite_self _ _ _, rfl⟩
              · rw [if_neg hemp] at h
                cases hcc : pdConcat all_coordinates with
                | error e =>
                    rw [hcc] at h
                    simp only [Except.bind] at h
                    simp at h
                | ok dcat =>
                    rw [hcc] at h
                    simp only [Except.bind] at h
                    cases hl : dfLoc dcat _COORD_FIELDS with
                    | error e => rw [hl] at h; simp at h
                    | ok result =>
                        rw [hl] at h
                        simp only [Prod.mk.injEq, Except.ok.injEq] at h
                        obtain ⟨h1, h2⟩ := h
                        subst h1
                        subst h2
                        exact ⟨rfl, result, fsRead_fsWrite_self _ _ _,
                          dfLoc_ok_cols dcat _ result hl⟩

theorem csv_ext_ne_html {p : FPath} (hext : p.ext = "csv") :
    p.ext ≠ "html" :=
  fun hh => (by decide : ("csv" : String) ≠ "html") (hext.symm.trans hh)

theorem csv_ext_ne_json {p : FPath} (hext : p.ext = "csv") :
    p.ext ≠ "json" :=
  fun hh => (by decide : ("csv" : String) ≠ "json") (hext.symm.trans hh)

theorem _process_pmcid_preserves_CsvF (env : Env) (pmcid : Nat)
    (od : String) (st : PState) (p : FPath) (hext : p.ext = "csv")
    (h : CsvF st.fs p) : CsvF (_process_pmcid env pmcid od st).2.fs p := by
  unfold _process_pmcid
  cases ha : _get_article env pmcid od st with
  | mk r1 st1 =>
      have h1 := @_get_article_fs_preserve env pmcid od st p
        (csv_ext_ne_html hext)
      rw [ha] at h1
      simp only at h1
      have hc1 : CsvF st1.fs p := by
        obtain ⟨df, hdf, hcols⟩ := h
        exact ⟨df, by rw [h1]; exact hdf, hcols⟩
      cases r1 with
      | error e => exact hc1
      | ok html_file =>
          simp only
          cases ht : _get_tables env pmcid html_file od st1 with
          | mk r2 st2 =>
              have h2 := @_get_tables_fs_preserve env pmcid html_file od st1
                p (csv_ext_ne_html hext) (csv_ext_ne_json hext)
              rw [ht] at h2
              simp only at h2
              have hc2 : CsvF st2.fs p := by
                obtain ⟨df, hdf, hcols⟩ := hc1
                exact ⟨df, by rw [h2]; exact hdf, hcols⟩
              cases r2 with
              | error e => exact hc2
              | ok td =>
                  simp only
                  rcases _get_coordinates_fs_cases env pmcid td od st2
                    with hfs | ⟨df, hcols, hfs⟩
                  · rw [hfs]; exact hc2
                  · rw [hfs]
                    by_cases hp : p = coordinatesPath od pmcid
                    · subst hp
                      exact ⟨df, fsRead_fsWrite_self _ _ _, hcols⟩
                    · obtain ⟨df2, hdf2, hcols2⟩ := hc2
                      exact ⟨df2, (fsRead_fsWrite_ne _ _ hp).trans hdf2,
                        hcols2⟩

theorem _process_pmcid_ok_props (env : Env) (pmcid : Nat) (od : String)
    (st : PState) (f : FPath) (st3 : PState)
    (h : _process_pmcid env pmcid od st = (Except.ok f, st3)) :
    f = coordinatesPath od pmcid ∧ CsvF st3.fs f := by
  unfold _process_pmcid at h
  cases ha : _get_article env pmcid od st with
  | mk r1 st1 =>
      rw [ha] at h
      cases r1 with
      | error e => simp at h
      | ok html_file =>
          simp only at h
          cases ht : _get_tables env pmcid html_file od st1 with
          | mk r2 st2 =>
              rw [ht] at h
              cases r2 with
              | error e => simp at h
              | ok td =>
                  simp only at h
                  exact _get_coordinates_ok_props env pmcid td od st2 f
                    st3 h

theorem _process_loop_CsvF (env : Env) (od : String) :
    ∀ (pmcids : List Nat) (files : List FPath) (n : Nat) (st : PState),
      (∀ f ∈ files, f.ext = "csv" ∧ CsvF st.fs f) →
      ∀ f ∈ (_process_loop env od pmcids files n st).1,
        f.ext = "csv" ∧
          CsvF (_process_loop env od pmcids files n st).2.2.fs f := by
  intro pmcids
  induction pmcids with
  | nil =>
      intro files n st hpre
      simpa [_process_loop] using hpre
  | cons pmcid rest ih =>
      intro files n st hpre
      unfold _process_loop
      cases hp : _process_pmcid env pmcid od st with
      | mk r st1 =>
          cases r with
          | ok f0 =>
              simp only
              refine ih (files ++ [f0]) n st1 ?_
              intro f hf
              rcases List.mem_append.mp hf with hcase | hcase
              · obtain ⟨hext, hcsv⟩ := hpre f hcase
                refine ⟨hext, ?_⟩
                have hh := _process_pmcid_preserves_CsvF env pmcid od st f
                  hext hcsv
                rw [hp] at hh
                exact hh
              · have hf0 : f = f0 := by simpa using hcase
                subst hf0
                obtain ⟨h1, h2⟩ :=
                  _process_pmcid_ok_props env pmcid od st f st1 hp
                exact ⟨by rw [h1]; rfl, h2⟩
          | error e =>
              simp only
              refine ih files (n + 1) _ ?_
              intro f hf
              obtain ⟨hext, hcsv⟩ := hpre f hf
              refine ⟨hext, ?_⟩
              have hh := _process_pmcid_preserves_CsvF env pmcid od st f
                hext hcsv
              rw [hp] at hh
              exact hh

theorem mapM_read_cols (fs1 : Fs) :
    ∀ (files : List FPath),
      (∀ f ∈ files, CsvF fs1 f) →
      ∃ dfs, files.mapM (read_csv fs1) = Except.ok dfs ∧
        dfs.length = files.length ∧
        ∀ df ∈ dfs, df.cols = _COORD_FIELDS := by
  intro files
  induction files with
  | nil => exact fun _ => ⟨[], rfl, rfl, by simp⟩
  | cons f rest ih =>
      intro hpre
      obtain ⟨df, hdf, hcols⟩ := hpre f (List.mem_cons_self _ _)
      obtain ⟨dfs, hdfs, hlen, hall⟩ :=
        ih (fun g hg => hpre g (List.mem_cons_of_mem _ hg))
      have hrd : read_csv fs1 f = Except.ok df := by
        unfold read_csv
        rw [hdf]
      refine ⟨df :: dfs, ?_, by simp [hlen], ?_⟩
      · rw [List.mapM_cons, hrd, hdfs]
        rfl
      · intro d hd
        rcases List.mem_cons.mp hd with hcase | hcase
        · exact hcase ▸ hcols
        · exact hall d hcase

theorem unionCols_nil_left (b : List String) : unionCols [] b = b := by
  unfold unionCols
  simp

theorem unionCols_subset (F b : List String) (h : ∀ c ∈ b, c ∈ F) :
    unionCols F b = F := by
  unfold unionCols
  have h2 : b.filter (fun c => !decide (c ∈ F)) = [] := by
    induction b with
    | nil => rfl
    | cons c rest ih =>
        have hc := h c (List.mem_cons_self _ _)
        simp only [List.filter_cons, hc]
        simpa using ih (fun x hx => h x (List.mem_cons_of_mem _ hx))
  rw [h2, List.append_nil]

theorem foldl_unionCols_F (F : List String) :
    ∀ (l : List DataFrame), (∀ df ∈ l, df.cols = F) →
      l.foldl (fun acc df => unionCols acc df.cols) F = F := by
  intro l
  induction l with
  | nil => intro _; rfl
  | cons d rest ih =>
      intro hall
      simp only [List.foldl_cons]
      rw [hall d (List.mem_cons_self _ _), unionCols_subset F F (fun c hc => hc)]
      exact ih (fun df hdf => hall df (List.mem_cons_of_mem _ hdf))

theorem pdConcat_cols (dfs : List DataFrame) (hne : dfs ≠ [])
    (hall : ∀ df ∈ dfs, df.cols = _COORD_FIELDS) :
    ∃ merged, pdConcat dfs = Except.ok merged ∧
      merged.cols = _COORD_FIELDS := by
  cases dfs with
  | nil => exact absurd rfl hne
  | cons d rest =>
      refine ⟨_, rfl, ?_⟩
      show (d :: rest).foldl (fun acc df => unionCols acc df.cols) [] =
        _COORD_FIELDS
      rw [List.foldl_cons, unionCols_nil_left,
        hall d (List.mem_cons_self _ _)]
      exact foldl_unionCols_F _ rest
        (fun df hdf => hall df (List.mem_cons_of_mem _ hdf))

/-- C7: every dataset the pipeline actually produces — the per-article csv
written by a successful _get_coordinates run (including the zero-row case)
and the merged csv written by a successful _process_all_pmcids run — has
exactly the columns pmcid, table_id, x, y, z in that order, whatever extra
columns the raw parse or the external detection routine produced. -/
theorem C7_theorem (env : Env) (od : String) :
    (∀ (pmcid : Nat) (td : String) (st : PState) (f : FPath) (st2 : PState),
      _get_coordinates env pmcid td od st = (Except.ok f, st2) →
      ∃ df, fsRead st2.fs f = some (FileData.csv df) ∧
        df.cols = _COORD_FIELDS) ∧
    (∀ (pmcids : List Nat) (st : PState) (f : FPath) (st2 : PState),
      _process_all_pmcids env pmcids od st = (Except.ok f, st2) →
      ∃ df, fsRead st2.fs f = some (FileData.csv df) ∧
        df.cols = _COORD_FIELDS) := by
  constructor
  · intro pmcid td st f st2 h
    obtain ⟨h1, df, hdf, hcols⟩ :=
      _get_coordinates_ok_props env pmcid td od st f st2 h
    exact ⟨df, hdf, hcols⟩
  · intro pmcids st f st2 h
    unfold _process_all_pmcids at h
    cases hloop : _process_loop env od pmcids [] 0 st with
    | mk files rest =>
        obtain ⟨n, st1⟩ := rest
        rw [hloop] at h
        have hinv := _process_loop_CsvF env od pmcids [] 0 st (by simp)
        rw [hloop] at hinv
        simp only at hinv h
        obtain ⟨dfs, hdfs, hlen, hall⟩ := mapM_read_cols st1.fs files
          (fun g hg => (hinv g hg).2)
        rw [hdfs] at h
        simp only at h
        cases dfs with
        | nil => simp [pdConcat] at h
        | cons d rest2 =>
            obtain ⟨merged, hcc, hmc⟩ := pdConcat_cols (d :: rest2)
              (by simp) hall
            rw [hcc] at h
            simp only at h
            have hmem : "pmcid" ∈ merged.cols := by
              rw [hmc]
              simp [_COORD_FIELDS]
            rw [if_pos hmem] at h
            simp only [Prod.mk.injEq, Except.ok.injEq] at h
            obtain ⟨h1, h2⟩ := h
            subst h1
            subst h2
            exact ⟨merged, fsRead_fsWrite_self _ _ _, hmc⟩

def dfC7 : DataFrame :=
  ⟨["x", "y", "z", "extra"],
    [[("x", Val.int 1), ("y", Val.int 2), ("z", Val.int 3),
      ("extra", Val.str "e")]]⟩

def envC7 : Env :=
  { net := fun u =>
      if u = _PMC_URL_TEMPLATE 7 then Except.ok "PAGE"
      else if u = _PMC_TABLE_URL_TEMPLATE 7 "tab1" then Except.ok "TBL"
      else Except.error "404",
    parseHtml := fun c =>
      if c = "PAGE" then Except.ok [⟨["table-wrap"], [("id", "tab1")]⟩]
      else Except.error "parse",
    readHtmlTable := fun c =>
      if c = "TBL" then Except.ok dfC7 else Except.error "no tables",
    extractCoordinates := fun d => Except.ok d }

theorem C7_witness :
    (∃ st2, _get_coordinates envC7 3 "out/pmcid_3_tables" "out" stC6 =
        (Except.ok (coordinatesPath "out" 3), st2) ∧
      ∃ df, fsRead st2.fs (coordinatesPath "out" 3) =
          some (FileData.csv df) ∧ df.cols = _COORD_FIELDS) ∧
    (∃ st2, _process_all_pmcids envC7 [7] "out" ⟨[], 0, 0, []⟩ =
        (Except.ok (mergedPath "out"), st2) ∧
      ∃ df, fsRead st2.fs (mergedPath "out") = some (FileData.csv df) ∧
        df.cols = _COORD_FIELDS) :=
  ⟨⟨(_get_coordinates envC7 3 "out/pmcid_3_tables" "out" stC6).2,
      ⟨rfl, (C7_theorem envC7 "out").1 3 "out/pmcid_3_tables" stC6
        (coordinatesPath "out" 3)
        (_get_coordinates envC7 3 "out/pmcid_3_tables" "out" stC6).2 rfl⟩⟩,
    ⟨(_process_all_pmcids envC7 [7] "out" ⟨[], 0, 0, []⟩).2,
      ⟨rfl, (C7_theorem envC7 "out").2 [7] ⟨[], 0, 0, []⟩
        (mergedPath "out")
        (_process_all_pmcids envC7 [7] "out" ⟨[], 0, 0, []⟩).2 rfl⟩⟩⟩

theorem C8_witness :
    fsRead fsC8 (articlePath "out" 9) = some (FileData.raw "PAGE") ∧
    _get_table_ids envC8 fsC8 (articlePath "out" 9) =
      Except.ok ["tabA", "tabC"] :=
  ⟨rfl, by
    have h := (C8_theorem envC8 fsC8 (articlePath "out" 9) "PAGE"
      [⟨["table-wrap"], [("id", "tabA")]⟩,
        ⟨["figure"], [("id", "figB")]⟩,
        ⟨["table-wrap"], [("id", "tabC")]⟩] rfl rfl (by decide)).1
    simpa using h⟩

end PubgetScrape
